import Mathlib

/-!
# Pathfinding of `apps/openmw/mwmechanics`

A shallow embedding of `pathfinding.cpp` / `pathfinding.hpp` (the path container and the
graph-backed path builder) and of `aipackage.cpp` (the per-actor navigation controller),
together with the properties proved about them.

Conventions of the embedding

* `int` coordinates are unbounded integers (`Int`); signed overflow is undefined behaviour in
  the source and is not modelled.
* `float` values are rationals (`ℚ`).  The squared distances that the path builder and the
  path container compare are computed as the source computes them, in single precision:
  `roundToFloat` (round to nearest, ties to even, on a 24-bit significand) is applied to
  the result of every float operation of `distanceSquared`, of `length2()`, of the
  subtraction feeding it in `buildPath`, of `sqrDistanceIgnoreZ` and of
  `tolerance*tolerance`, and to the conversion of an `int` in `MakeOsgVec3`.  The exponent
  range is unbounded: overflow to infinity, subnormal numbers and NaN are not modelled.
* The remaining float arithmetic (the geometry of the controller and of `checkWayIsClear`)
  is exact arithmetic on `ℚ`.  Its one irrational primitive, `sqrt`, is a parameter
  `sqrtf : ℚ → ℚ` of every function that (transitively) calls it.
* `assert` is compiled out (`NDEBUG`); an asserted condition is never part of the control
  flow of a definition.
* Pointers to cell stores are addresses (`Nat`); everything the code asks of the game world
  and of a cell store is a field of `MWBase.World`.
* What `aipackage.cpp` takes from headers that are not among the sources (constants, the
  stuck detector, the door lookup, `atan2`, `asin`) is a field of `MWMechanics.Externals`.
* Calls that act on the world or on the actor from outside the embedded code (the direct ray
  cast, opening a door, the evasive manoeuvre, the steering calls) are recorded, in order, in
  a list of `MWMechanics.WorldCall`.
-/

/-! ## Single-precision rounding -/

/-- Binary logarithm of `n`, rounded down, for positive `n` (0 for `n = 0`); the first
argument bounds the number of halvings and is taken to be `n` itself. -/
def roundToFloat.log2 : Nat → Nat → Nat
  | 0, _ => 0
  | fuel + 1, n => if n < 2 then 0 else roundToFloat.log2 fuel (n / 2) + 1

/-- The binary exponent of the positive ratio a / b: the integer e with
2^e ≤ a / b < 2^(e+1). -/
def roundToFloat.exponent (a b : Nat) : Int :=
  let k : Int := (roundToFloat.log2 a a : Int) - (roundToFloat.log2 b b : Int)
  if (2 : ℚ) ^ k * (b : ℚ) ≤ (a : ℚ) then k else k - 1

/-- The integer nearest to the ratio num / den, the even one of the two when the ratio lies
half way between two integers. -/
def roundToFloat.nearestEven (num den : Nat) : Nat :=
  let n := num / den
  let r := num % den
  if den < 2 * r ∨ (2 * r = den ∧ n % 2 = 1) then n + 1 else n

/-- Rounding of the positive ratio a / b: it is scaled by a power of two into the range of a
24-bit significand, [2^23, 2^24), rounded to an integer there and scaled back. -/
def roundToFloat.positive (a b : Nat) : ℚ :=
  let shift : Int := 23 - roundToFloat.exponent a b
  let n :=
    if 0 ≤ shift then roundToFloat.nearestEven (a * 2 ^ shift.toNat) b
    else roundToFloat.nearestEven a (b * 2 ^ (-shift).toNat)
  (n : ℚ) * (2 : ℚ) ^ (-shift)

/-- The value a `float` takes when the exact result `q` of an operation is stored in it:
the nearest number with a 24-bit significand, ties to the even significand (the default
rounding of IEEE 754 single precision, exponent range unbounded). -/
def roundToFloat (q : ℚ) : ℚ :=
  if q = 0 then 0
  else if 0 < q then roundToFloat.positive q.num.toNat q.den
  else -roundToFloat.positive (-q).num.toNat q.den

/-! ## Data model -/

namespace osg

/-- Three-component vector of floats. -/
structure Vec3f where
  x : ℚ
  y : ℚ
  z : ℚ
deriving DecidableEq

namespace Vec3f

/-- Componentwise difference, `operator-`, in exact arithmetic. -/
def sub (a b : Vec3f) : Vec3f := ⟨a.x - b.x, a.y - b.y, a.z - b.z⟩

/-- Componentwise difference, `operator-`, in single precision: every component of the
result is rounded. -/
def fsub (a b : Vec3f) : Vec3f :=
  ⟨roundToFloat (a.x - b.x), roundToFloat (a.y - b.y), roundToFloat (a.z - b.z)⟩

/-- Componentwise sum, `operator+`. -/
def add (a b : Vec3f) : Vec3f := ⟨a.x + b.x, a.y + b.y, a.z + b.z⟩

/-- Multiplication by a scalar, `operator*(float)`. -/
def scale (a : Vec3f) (s : ℚ) : Vec3f := ⟨a.x * s, a.y * s, a.z * s⟩

/-- Unary minus. -/
def neg (a : Vec3f) : Vec3f := ⟨-a.x, -a.y, -a.z⟩

/-- Squared length, `length2()`, in single precision: the three products and the two sums,
taken from left to right, are each rounded. -/
def length2 (a : Vec3f) : ℚ :=
  roundToFloat
    (roundToFloat (roundToFloat (a.x * a.x) + roundToFloat (a.y * a.y)) +
      roundToFloat (a.z * a.z))

/-- Length, `length()`: the square root of the sum of squares, in exact arithmetic. -/
def length (sqrtf : ℚ → ℚ) (a : Vec3f) : ℚ := sqrtf (a.x * a.x + a.y * a.y + a.z * a.z)

/-- In-place normalisation, `normalize()`: the vector is scaled by the inverse of its length
when that length is positive and is left alone otherwise. -/
def normalize (sqrtf : ℚ → ℚ) (a : Vec3f) : Vec3f :=
  let norm := length sqrtf a
  if norm > 0 then
    let inv := 1 / norm
    ⟨a.x * inv, a.y * inv, a.z * inv⟩
  else a

end Vec3f

/-- The unit vector along the vertical axis, `osg::Z_AXIS`. -/
def Z_AXIS : Vec3f := ⟨0, 0, 1⟩

end osg

namespace ESM

/-- Modelled from the spec: the declaration of `ESM::Pathgrid::Point` (loadpgrd.hpp) is not
part of the sources; a waypoint is a point (x, y, z) with the integer coordinates `mX`, `mY`,
`mZ` that the code reads. -/
structure Pathgrid.Point where
  mX : Int
  mY : Int
  mZ : Int
deriving DecidableEq

/-- Modelled from the spec: the declaration of `ESM::Pathgrid` (loadpgrd.hpp) is not part of
the sources; a pathgrid is the sequence `mPoints` of its node positions, in cell-local
coordinates. -/
structure Pathgrid where
  mPoints : List Pathgrid.Point
deriving DecidableEq

/-- Modelled from the spec: the declaration of `ESM::Position` (defs.hpp) is not part of the
sources; of a position the code reads the three floats `pos[0]`, `pos[1]`, `pos[2]`, held
here as the components x, y, z of `pos`. -/
structure Position where
  pos : osg.Vec3f

/-- `ESM::Position::asVec3`. -/
def Position.asVec3 (p : Position) : osg.Vec3f := p.pos

end ESM

namespace MWMechanics

/-- Modelled from the spec: coordinateconverter.hpp is not part of the sources; the converter
of a cell is the set of transforms between cell-local and world coordinates that the code
calls: `toLocalVec3` (world point to local float vector), `toWorld` (local point to world
point) and `toLocal` (world float vector to local float vector). -/
structure CoordinateConverter where
  toLocalVec3 : ESM.Pathgrid.Point → osg.Vec3f
  toWorld : ESM.Pathgrid.Point → ESM.Pathgrid.Point
  toLocal : osg.Vec3f → osg.Vec3f

/-- Modelled from the spec: movement.hpp is not part of the sources; of the movement
settings of an actor the code writes the three desired movement axes `mPosition[0]`,
`mPosition[1]` (forward) and `mPosition[2]`. -/
structure Movement where
  mPosition0 : ℚ
  mPosition1 : ℚ
  mPosition2 : ℚ

end MWMechanics

namespace MWWorld

/-- An actor (`MWWorld::Ptr`) as the navigation code sees it during one call:
`getRefData().getPosition()`, `getCell()` (an address), `getClass().getSpeed(actor)`,
`getClass().canSwim(actor)` and `getClass().getMovementSettings(actor)`. -/
structure Ptr where
  position : ESM.Position
  cell : Nat
  speed : ℚ
  canSwim : Bool
  movement : MWMechanics.Movement

/-- A door (`MWWorld::Ptr` of a door) as `evadeObstacles` reads it:
`getCellRef().getTeleport()`, `getCellRef().getTrap()`, `getCellRef().getLockLevel()` and
`getClass().getDoorState(door)`. -/
structure DoorRef where
  teleport : Bool
  trap : String
  lockLevel : Int
  doorState : Int
deriving DecidableEq

end MWWorld

namespace MWBase

/-- The game world as far as the path code consults it.  A cell store is named by its
address.

* `searchPathgrid cell` is `getStore().get<ESM::Pathgrid>().search(*cell->getCell())`,
  `none` for the null pointer;
* `converter cell` is `CoordinateConverter(cell->getCell())`;
* `isPointConnected cell` and `aStarSearch cell` are the member functions of the cell store;
* `getDistToNearestRayHit from dir maxDist` is the ray query of the world;
* `castRay x1 y1 z1 x2 y2 z2` is the direct ray cast, true when the line is blocked;
* `isSwimming actor` and `isFlying actor` are the queries of the same names;
* `playerCell` is `getPlayer().getCell()` and `isExterior cell` is
  `cell->getCell()->isExterior()`. -/
structure World where
  searchPathgrid : Nat → Option ESM.Pathgrid
  converter : Nat → MWMechanics.CoordinateConverter
  isPointConnected : Nat → Nat → Nat → Bool
  aStarSearch : Nat → Nat → Nat → List ESM.Pathgrid.Point
  getDistToNearestRayHit : osg.Vec3f → osg.Vec3f → ℚ → ℚ
  castRay : ℚ → ℚ → ℚ → ℚ → ℚ → ℚ → Bool
  isSwimming : MWWorld.Ptr → Bool
  isFlying : MWWorld.Ptr → Bool
  playerCell : Nat
  isExterior : Nat → Bool

end MWBase

namespace MWMechanics

open ESM.Pathgrid (Point)

/-- `std::numeric_limits<float>::max()`, that is (2^24 - 1) * 2^104. -/
def FLT_MAX : ℚ := 340282346638528859811704183484516925440

/-- `PathFinder::MakeOsgVec3`: the coordinates of a point as floats, each the result of a
`static_cast<float>` of an `int`. -/
def PathFinder.MakeOsgVec3 (p : Point) : osg.Vec3f :=
  ⟨roundToFloat (p.mX : ℚ), roundToFloat (p.mY : ℚ), roundToFloat (p.mZ : ℚ)⟩

/-- `distanceSquared` of the anonymous namespace, in single precision. -/
def distanceSquared (point : Point) (pos : osg.Vec3f) : ℚ :=
  ((PathFinder.MakeOsgVec3 point).fsub pos).length2

/-- The loop of `getClosestPoint`: `counter` is the index of the head of the points still to
visit; `distanceBetween` and `closestIndex` are the loop variables. -/
def getClosestPoint.loop (pos : osg.Vec3f) :
    List Point → Nat → ℚ → Nat → Nat
  | [], _, _, closestIndex => closestIndex
  | p :: rest, counter, distanceBetween, closestIndex =>
    let potentialDistBetween := distanceSquared p pos
    if potentialDistBetween < distanceBetween then
      getClosestPoint.loop pos rest (counter + 1) potentialDistBetween counter
    else
      getClosestPoint.loop pos rest (counter + 1) distanceBetween closestIndex

/-- `getClosestPoint`: index of the pathgrid point closest to `pos` (local coordinates).  The
source asserts that the grid is non-empty; on the empty grid, which it would index out of
range, the model answers 0. -/
def getClosestPoint (grid : ESM.Pathgrid) (pos : osg.Vec3f) : Nat :=
  match grid.mPoints with
  | [] => 0
  | p0 :: rest => getClosestPoint.loop pos rest 1 (distanceSquared p0 pos) 0

/-- The four loop variables of `getClosestReachablePoint`. -/
structure ClosestReachableState where
  closestDistanceBetween : ℚ
  closestDistanceReachable : ℚ
  closestIndex : Nat
  closestReachableIndex : Nat

/-- One iteration of the loop of `getClosestReachablePoint` at index `counter` whose point
is `p`. -/
def getClosestReachablePoint.step (connected : Nat → Nat → Bool) (pos : osg.Vec3f)
    (start : Nat) (p : Point) (counter : Nat) (s : ClosestReachableState) :
    ClosestReachableState :=
  let potentialDistBetween := distanceSquared p pos
  if potentialDistBetween < s.closestDistanceReachable then
    let s1 : ClosestReachableState :=
      if connected start counter then
        { s with closestDistanceReachable := potentialDistBetween,
                 closestReachableIndex := counter }
      else s
    if potentialDistBetween < s1.closestDistanceBetween then
      { s1 with closestDistanceBetween := potentialDistBetween, closestIndex := counter }
    else s1
  else s

/-- The loop of `getClosestReachablePoint` over the points from index `counter` on. -/
def getClosestReachablePoint.loop (connected : Nat → Nat → Bool) (pos : osg.Vec3f)
    (start : Nat) : List Point → Nat → ClosestReachableState → ClosestReachableState
  | [], _, s => s
  | p :: rest, counter, s =>
    getClosestReachablePoint.loop connected pos start rest (counter + 1)
      (getClosestReachablePoint.step connected pos start p counter s)

/-- `getClosestReachablePoint`: the index of the point closest to `pos` among those connected
to `start`, and whether that index is the one recorded as closest overall.  `connected` is
`cell->isPointConnected`. -/
def getClosestReachablePoint (grid : ESM.Pathgrid) (connected : Nat → Nat → Bool)
    (pos : osg.Vec3f) (start : Nat) : Nat × Bool :=
  let s := getClosestReachablePoint.loop connected pos start grid.mPoints 0
    { closestDistanceBetween := FLT_MAX, closestDistanceReachable := FLT_MAX,
      closestIndex := 0, closestReachableIndex := 0 }
  (s.closestReachableIndex, s.closestReachableIndex == s.closestIndex)

/-- The condition asserted at the end of `getClosestReachablePoint`: start and the chosen end
point are connected. -/
def getClosestReachablePoint.postcondition (grid : ESM.Pathgrid)
    (connected : Nat → Nat → Bool) (pos : osg.Vec3f) (start : Nat) : Bool :=
  connected start (getClosestReachablePoint grid connected pos start).1

/-- `sqrDistanceIgnoreZ`: squared planar distance from a point to (x, y), in single
precision: the `int` coordinates are converted to `float`, and the two differences, the two
products and the sum are each rounded. -/
def sqrDistanceIgnoreZ (point : Point) (x y : ℚ) : ℚ :=
  let x := roundToFloat (x - roundToFloat (point.mX : ℚ))
  let y := roundToFloat (y - roundToFloat (point.mY : ℚ))
  roundToFloat (roundToFloat (x * x) + roundToFloat (y * y))

/-- `PATHFIND_Z_REACH`. -/
def PATHFIND_Z_REACH : ℚ := 50

/-- `PATHFIND_CAUTION_DIST`. -/
def PATHFIND_CAUTION_DIST : ℚ := 500

/-- `PATHFIND_SHORTCUT_RETRY_DIST`. -/
def PATHFIND_SHORTCUT_RETRY_DIST : ℚ := 300

/-- The point from which `checkWayIsClear` casts its ray: `from` moved by `offsetXY` along
the normalised horizontal direction of travel and raised by `verticalOffset`. -/
def checkWayIsClear.rayOrigin (sqrtf : ℚ → ℚ) (from_ to_ : osg.Vec3f) (offsetXY : ℚ)
    (verticalOffset : ℚ) : osg.Vec3f :=
  let dir := to_.sub from_
  let dir : osg.Vec3f := { dir with z := 0 }
  let dir := dir.normalize sqrtf
  (from_.add (dir.scale offsetXY)).add (osg.Z_AXIS.scale verticalOffset)

/-- `checkWayIsClear`. -/
def checkWayIsClear (w : MWBase.World) (sqrtf : ℚ → ℚ) (from_ to_ : osg.Vec3f) (offsetXY : ℚ) :
    Bool :=
  if (to_.sub from_).length sqrtf ≥ PATHFIND_CAUTION_DIST ∨ |from_.z - to_.z| ≤ PATHFIND_Z_REACH then
    let verticalOffset : ℚ := 200
    let _from := checkWayIsClear.rayOrigin sqrtf from_ to_ offsetXY verticalOffset
    let h := _from.z -
      w.getDistToNearestRayHit _from osg.Z_AXIS.neg (verticalOffset + PATHFIND_Z_REACH + 1)
    if |from_.z - h| ≤ PATHFIND_Z_REACH then true else false
  else false

/-- The state of a `PathFinder`: the path, the cached pathgrid and the cell it was looked up
for (`none` is the null pointer). -/
structure PathFinder where
  mPath : List Point
  mPathgrid : Option ESM.Pathgrid
  mCell : Option Nat

namespace PathFinder

/-- `PathFinder::PathTolerance`. -/
def PathTolerance : ℚ := 32

/-- The constructor `PathFinder::PathFinder()`. -/
def new : PathFinder := { mPath := [], mPathgrid := none, mCell := none }

/-- The cache invariant of a path finder: a cached pathgrid is the pathgrid the store holds
for the cached cell.  It holds after construction and `buildPath` keeps it. -/
def cacheValid (w : MWBase.World) (self : PathFinder) : Prop :=
  match self.mCell, self.mPathgrid with
  | some cell, some grid => w.searchPathgrid cell = some grid
  | _, _ => True

/-- `PathFinder::clearPath`. -/
def clearPath (self : PathFinder) : PathFinder :=
  if !self.mPath.isEmpty then { self with mPath := [] } else self

/-- `PathFinder::addPointToPath`. -/
def addPointToPath (self : PathFinder) (point : Point) : PathFinder :=
  { self with mPath := self.mPath ++ [point] }

/-- `PathFinder::getPath`. -/
def getPath (self : PathFinder) : List Point := self.mPath

/-- `PathFinder::isPathConstructed`. -/
def isPathConstructed (self : PathFinder) : Bool := !self.mPath.isEmpty

/-- `PathFinder::getPathSize`. -/
def getPathSize (self : PathFinder) : Nat := self.mPath.length

/-- `PathFinder::buildPath`.  The node indices come from the two scans over `mPoints` and
index that vector; `getD` reads the vector at them. -/
def buildPath (w : MWBase.World) (self : PathFinder) (startPoint endPoint : Point)
    (cell : Nat) : PathFinder :=
  let self : PathFinder := { self with mPath := [] }
  let self : PathFinder :=
    if self.mCell ≠ some cell ∨ self.mPathgrid.isNone then
      { self with mCell := some cell, mPathgrid := w.searchPathgrid cell }
    else self
  match self.mPathgrid with
  | none => { self with mPath := self.mPath ++ [endPoint] }
  | some mPathgrid =>
    if mPathgrid.mPoints.isEmpty then { self with mPath := self.mPath ++ [endPoint] }
    else
      let converter := w.converter cell
      let startPointInLocalCoords := converter.toLocalVec3 startPoint
      let startNode := getClosestPoint mPathgrid startPointInLocalCoords
      let endPointInLocalCoords := converter.toLocalVec3 endPoint
      let endNode := getClosestReachablePoint mPathgrid (w.isPointConnected cell)
        endPointInLocalCoords startNode
      let startToEndLength2 := (endPointInLocalCoords.fsub startPointInLocalCoords).length2
      let endTolastNodeLength2 :=
        distanceSquared (mPathgrid.mPoints.getD endNode.1 ⟨0, 0, 0⟩) endPointInLocalCoords
      let startTo1stNodeLength2 :=
        distanceSquared (mPathgrid.mPoints.getD startNode ⟨0, 0, 0⟩) startPointInLocalCoords
      if startToEndLength2 < startTo1stNodeLength2 ∨ startToEndLength2 < endTolastNodeLength2
      then { self with mPath := self.mPath ++ [endPoint] }
      else
        let self : PathFinder :=
          if startNode = endNode.1 then
            let temp := converter.toWorld (mPathgrid.mPoints.getD startNode ⟨0, 0, 0⟩)
            { self with mPath := self.mPath ++ [temp] }
          else
            { self with mPath := (w.aStarSearch cell startNode endNode.1).map converter.toWorld }
        if endNode.2 then { self with mPath := self.mPath ++ [endPoint] } else self

/-- `PathFinder::checkPathCompleted`: the returned flag and the state after the call. -/
def checkPathCompleted (self : PathFinder) (x y : ℚ) (tolerance : ℚ) : Bool × PathFinder :=
  match self.mPath with
  | [] => (true, self)
  | nextPoint :: rest =>
    if sqrDistanceIgnoreZ nextPoint x y < roundToFloat (tolerance * tolerance) then
      let self : PathFinder := { self with mPath := rest }
      if self.mPath.isEmpty then (true, self) else (false, self)
    else (false, self)

/-- `PathFinder::buildSyncedPath`. -/
def buildSyncedPath (w : MWBase.World) (self : PathFinder) (startPoint endPoint : Point)
    (cell : Nat) : PathFinder :=
  if self.mPath.length < 2 then buildPath w self startPoint endPoint cell
  else
    match self.getPath with
    | [] => buildPath w self startPoint endPoint cell
    | oldStart :: _ =>
      let self := buildPath w self startPoint endPoint cell
      if self.mPath.length ≥ 2 then
        match self.mPath with
        | _ :: iter :: rest =>
          if iter.mX = oldStart.mX ∧ iter.mY = oldStart.mY ∧ iter.mZ = oldStart.mZ then
            { self with mPath := iter :: rest }
          else self
        | _ => self
      else self

end PathFinder

/-! ## Geometry utilities of `pathfinding.cpp` used by the controller -/

/-- `distance(point, x, y, z)`: distance from a point to the position (x, y, z). -/
def distanceXYZ (sqrtf : ℚ → ℚ) (point : Point) (x y z : ℚ) : ℚ :=
  let x := x - (point.mX : ℚ)
  let y := y - (point.mY : ℚ)
  let z := z - (point.mZ : ℚ)
  sqrtf (x * x + y * y + z * z)

/-- `distance(a, b)`: distance between two pathgrid points; the coordinate differences are
taken in `int` and then converted to `float`. -/
def distance (sqrtf : ℚ → ℚ) (a b : Point) : ℚ :=
  let x : ℚ := ((a.mX - b.mX : Int) : ℚ)
  let y : ℚ := ((a.mY - b.mY : Int) : ℚ)
  let z : ℚ := ((a.mZ - b.mZ : Int) : ℚ)
  sqrtf (x * x + y * y + z * z)

/-- `getZAngleToDir`. -/
def getZAngleToDir (atan2 : ℚ → ℚ → ℚ) (dir : osg.Vec3f) : ℚ := atan2 dir.x dir.y

/-- `getXAngleToDir`. -/
def getXAngleToDir (sqrtf : ℚ → ℚ) (asin : ℚ → ℚ) (dir : osg.Vec3f) : ℚ :=
  -asin (dir.z / dir.length sqrtf)

/-- `getZAngleToPoint`. -/
def getZAngleToPoint (atan2 : ℚ → ℚ → ℚ) (origin dest : Point) : ℚ :=
  let dir := (PathFinder.MakeOsgVec3 dest).sub (PathFinder.MakeOsgVec3 origin)
  getZAngleToDir atan2 dir

/-- `getXAngleToPoint`. -/
def getXAngleToPoint (sqrtf : ℚ → ℚ) (asin : ℚ → ℚ) (origin dest : Point) : ℚ :=
  let dir := (PathFinder.MakeOsgVec3 dest).sub (PathFinder.MakeOsgVec3 origin)
  getXAngleToDir sqrtf asin dir

/-- `static_cast<int>` of a float: truncation toward zero. -/
def static_cast_int (q : ℚ) : Int := q.num.tdiv (q.den : Int)

/-- `PathFinder::MakePathgridPoint(const ESM::Position&)`; the implicit conversion
`ESM::Pathgrid::Point start = pos.pos` of `pathTo` is the same conversion. -/
def PathFinder.MakePathgridPoint (p : ESM.Position) : Point :=
  ⟨static_cast_int p.pos.x, static_cast_int p.pos.y, static_cast_int p.pos.z⟩

/-- `PathFinder::getZAngleToNext`. -/
def PathFinder.getZAngleToNext (atan2 : ℚ → ℚ → ℚ) (self : PathFinder) (x y : ℚ) : ℚ :=
  match self.mPath with
  | [] => 0
  | nextPoint :: _ =>
    let directionX := (nextPoint.mX : ℚ) - x
    let directionY := (nextPoint.mY : ℚ) - y
    atan2 directionX directionY

/-- `PathFinder::getXAngleToNext`. -/
def PathFinder.getXAngleToNext (sqrtf : ℚ → ℚ) (asin : ℚ → ℚ) (self : PathFinder)
    (x y z : ℚ) : ℚ :=
  match self.mPath with
  | [] => 0
  | nextPoint :: _ =>
    let dir := (PathFinder.MakeOsgVec3 nextPoint).sub ⟨x, y, z⟩
    Neg.neg (asin (dir.z / dir.length sqrtf))

/-! ## The navigation controller (`aipackage.cpp`) -/

/-- What `aipackage.cpp` uses from headers that are not among the sources.

* `AI_REACTION_TIME` (aipackage.hpp), `MAX_VEL_ANGULAR_RADIANS` (steering.hpp) and
  `REAL_SIZE` (`ESM::Land::REAL_SIZE`, loadland.hpp) are the constants of those names;
* `sqrt`, `atan2`, `asin` are the functions of `<cmath>`;
* `obstacleCheck state actor duration` is `mObstacleCheck.check(actor, duration)` run on the
  stuck detector in the internal state `state`: its answer and the next internal state;
* `takeEvasiveAction state movement` is `mObstacleCheck.takeEvasiveAction(movement)`: the
  movement settings it leaves and the next internal state;
* `getNearbyDoor actor` is the door lookup, `none` for the null pointer. -/
structure Externals where
  AI_REACTION_TIME : ℚ
  MAX_VEL_ANGULAR_RADIANS : ℚ
  REAL_SIZE : ℚ
  sqrt : ℚ → ℚ
  atan2 : ℚ → ℚ → ℚ
  asin : ℚ → ℚ
  obstacleCheck : Nat → MWWorld.Ptr → ℚ → Bool × Nat
  takeEvasiveAction : Nat → Movement → Movement × Nat
  getNearbyDoor : MWWorld.Ptr → Option MWWorld.DoorRef

/-- A call made by the controller that acts outside the embedded code: the direct ray cast
`world->castRay`, `world->activateDoor(door, state)`, `mObstacleCheck.takeEvasiveAction`,
and the steering calls `zTurn(actor, angle)` and `smoothTurn(actor, angle, axis)`. -/
inductive WorldCall where
  | castRay (x1 y1 z1 x2 y2 z2 : ℚ)
  | activateDoor (door : MWWorld.DoorRef) (state : Int)
  | takeEvasiveAction
  | zTurn (angle : ℚ)
  | smoothTurn (angle : ℚ) (axis : Nat)
deriving DecidableEq

/-- The data members of `AiPackage` that the embedded member functions touch.
`mObstacleCheck` is the internal state of the stuck detector. -/
structure AiPackage where
  mPathFinder : PathFinder
  mObstacleCheck : Nat
  mTimer : ℚ
  mLastActorPos : osg.Vec3f
  mPrevDest : Point
  mShortcutProhibited : Bool
  mShortcutFailPos : Point

/-- Result of `shortcutPath`: the returned flag, the state after the call, the value behind
the `destInLOS` pointer (`none` for the null pointer) and the calls made. -/
structure ShortcutResult where
  ret : Bool
  self : AiPackage
  destInLOS : Option Bool
  calls : List WorldCall

/-- Result of `evadeObstacles`: the state and the movement settings of the actor after the
call, and the calls made. -/
structure EvadeResult where
  self : AiPackage
  movement : Movement
  calls : List WorldCall

/-- A controller state together with the calls made on the way to it. -/
structure StepResult where
  self : AiPackage
  calls : List WorldCall

/-- Result of `pathTo`: the returned flag, the state and the movement settings of the actor
after the call, and the calls made. -/
structure PathToResult where
  ret : Bool
  self : AiPackage
  movement : Movement
  calls : List WorldCall

namespace AiPackage

/-- The constructor `AiPackage::AiPackage()`; the members it does not name are
default-constructed. -/
def new (e : Externals) : AiPackage :=
  { mPathFinder := PathFinder.new
    mObstacleCheck := 0
    mTimer := e.AI_REACTION_TIME + 1
    mLastActorPos := ⟨0, 0, 0⟩
    mPrevDest := ⟨0, 0, 0⟩
    mShortcutProhibited := false
    mShortcutFailPos := ⟨0, 0, 0⟩ }

/-- `AiPackage::checkWayIsClearForActor`: the returned flag and the state after the call. -/
def checkWayIsClearForActor (w : MWBase.World) (e : Externals) (self : AiPackage)
    (startPoint endPoint : Point) (actor : MWWorld.Ptr) : Bool × AiPackage :=
  let actorCanMoveByZ := (actor.canSwim && w.isSwimming actor) || w.isFlying actor
  if actorCanMoveByZ then (true, self)
  else
    let actorSpeed := actor.speed
    let maxAvoidDist :=
      e.AI_REACTION_TIME * actorSpeed + actorSpeed / e.MAX_VEL_ANGULAR_RADIANS * 2
    let distToTarget := osg.Vec3f.length e.sqrt ⟨(endPoint.mX : ℚ), (endPoint.mY : ℚ), 0⟩
    let offsetXY := if distToTarget > maxAvoidDist * (3 / 2) then maxAvoidDist
      else maxAvoidDist / 2
    let isClear := checkWayIsClear w e.sqrt (PathFinder.MakeOsgVec3 startPoint)
      (PathFinder.MakeOsgVec3 endPoint) offsetXY
    let self : AiPackage :=
      if isClear then
        if self.mShortcutProhibited then
          { self with mShortcutProhibited := false, mShortcutFailPos := ⟨0, 0, 0⟩ }
        else self
      else self
    let self : AiPackage :=
      if !isClear then
        if self.mShortcutFailPos.mX = 0 ∧ self.mShortcutFailPos.mY = 0 ∧
            self.mShortcutFailPos.mZ = 0 then
          { self with mShortcutProhibited := true, mShortcutFailPos := startPoint }
        else self
      else self
    (isClear, self)

/-- `AiPackage::shortcutPath`. -/
def shortcutPath (w : MWBase.World) (e : Externals) (self : AiPackage)
    (startPoint endPoint : Point) (actor : MWWorld.Ptr) (destInLOS : Option Bool) :
    ShortcutResult :=
  let actorCanMoveByZ := (actor.canSwim && w.isSwimming actor) || w.isFlying actor
  let isPathClear := actorCanMoveByZ
  if isPathClear = false ∧
      (self.mShortcutProhibited = false ∨
        ((PathFinder.MakeOsgVec3 self.mShortcutFailPos).sub
          (PathFinder.MakeOsgVec3 startPoint)).length e.sqrt ≥ PATHFIND_SHORTCUT_RETRY_DIST)
  then
    let isPathClear := !w.castRay (startPoint.mX : ℚ) (startPoint.mY : ℚ) (startPoint.mZ : ℚ)
      (endPoint.mX : ℚ) (endPoint.mY : ℚ) (endPoint.mZ : ℚ)
    let calls := [WorldCall.castRay (startPoint.mX : ℚ) (startPoint.mY : ℚ) (startPoint.mZ : ℚ)
      (endPoint.mX : ℚ) (endPoint.mY : ℚ) (endPoint.mZ : ℚ)]
    let destInLOS := destInLOS.map (fun _ => isPathClear)
    if isPathClear = false then
      { ret := false, self := self, destInLOS := destInLOS, calls := calls }
    else
      let r := checkWayIsClearForActor w e self startPoint endPoint actor
      let isPathClear := r.1
      let self := r.2
      if isPathClear then
        { ret := true
          self := { self with
            mPathFinder := self.mPathFinder.clearPath.addPointToPath endPoint }
          destInLOS := destInLOS, calls := calls }
      else { ret := false, self := self, destInLOS := destInLOS, calls := calls }
  else
    if isPathClear then
      { ret := true
        self := { self with mPathFinder := self.mPathFinder.clearPath.addPointToPath endPoint }
        destInLOS := destInLOS, calls := [] }
    else { ret := false, self := self, destInLOS := destInLOS, calls := [] }

/-- `AiPackage::doesPathNeedRecalc`: the returned flag and the state after the call. -/
def doesPathNeedRecalc (e : Externals) (self : AiPackage) (dest : Point) (_cell : Nat) :
    Bool × AiPackage :=
  let needRecalc := decide (distance e.sqrt self.mPrevDest dest > 10)
  if needRecalc then (needRecalc, { self with mPrevDest := dest }) else (needRecalc, self)

/-- `AiPackage::isNearInactiveCell`. -/
def isNearInactiveCell (w : MWBase.World) (e : Externals) (actorPos : ESM.Position) : Bool :=
  let playerCell := w.playerCell
  if w.isExterior playerCell then
    let actorOffset := (w.converter playerCell).toLocal actorPos.asVec3
    let distanceFromEdge : ℚ := 200
    let minThreshold := (-1) * e.REAL_SIZE + distanceFromEdge
    let maxThreshold := 2 * e.REAL_SIZE - distanceFromEdge
    decide (actorOffset.x < minThreshold ∨ maxThreshold < actorOffset.x ∨
      actorOffset.y < minThreshold ∨ maxThreshold < actorOffset.y)
  else false

/-- `AiPackage::evadeObstacles`. -/
def evadeObstacles (e : Externals) (self : AiPackage) (actor : MWWorld.Ptr) (duration : ℚ)
    (pos : ESM.Position) : EvadeResult :=
  let calls := [WorldCall.zTurn (self.mPathFinder.getZAngleToNext e.atan2 pos.pos.x pos.pos.y)]
  let movement := actor.movement
  let check := e.obstacleCheck self.mObstacleCheck actor duration
  let self : AiPackage := { self with mObstacleCheck := check.2 }
  if check.1 then
    match e.getNearbyDoor actor with
    | some door =>
      if door.teleport = false ∧ door.trap.isEmpty = true ∧ door.lockLevel ≤ 0 ∧
          door.doorState = 0 then
        { self := self, movement := movement,
          calls := calls ++ [WorldCall.activateDoor door 1] }
      else { self := self, movement := movement, calls := calls }
    | none =>
      let evade := e.takeEvasiveAction self.mObstacleCheck movement
      { self := { self with mObstacleCheck := evade.2 }, movement := evade.1,
        calls := calls ++ [WorldCall.takeEvasiveAction] }
  else
    { self := self, movement := { movement with mPosition1 := 1 }, calls := calls }

/-- The stuck test of `pathTo` (lines 75-76), on the state whose timer has been advanced. -/
def pathTo.isStuck (e : Externals) (self : AiPackage) (actor : MWWorld.Ptr)
    (start dest : Point) : Bool :=
  decide (distanceXYZ e.sqrt start self.mLastActorPos.x self.mLastActorPos.y
      self.mLastActorPos.z < actor.speed * self.mTimer ∧
    distance e.sqrt dest start > 20)

/-- The full rebuild of `pathTo` (lines 96-112): `buildSyncedPath`, then the collapse to the
direct waypoint when the destination is in line of sight. -/
def pathTo.buildSynced (w : MWBase.World) (e : Externals) (self : AiPackage)
    (actor : MWWorld.Ptr) (start dest : Point) (destInLOS : Bool) : AiPackage :=
  let mPathFinder := self.mPathFinder.buildSyncedPath w start dest actor.cell
  let mPathFinder : PathFinder :=
    if destInLOS = true ∧ mPathFinder.getPath.length > 1 then
      let pPointBeforeDest :=
        mPathFinder.getPath.getD (mPathFinder.getPath.length - 2) ⟨0, 0, 0⟩
      if distance e.sqrt start dest ≤ distance e.sqrt dest pPointBeforeDest then
        mPathFinder.clearPath.addPointToPath dest
      else mPathFinder
    else mPathFinder
  { self with mPathFinder := mPathFinder }

/-- The rebuild decision of `pathTo` (lines 80-114): whether the path needs recalculation,
whether the way is still clear, and the shortcut or the full rebuild that follows. -/
def pathTo.rebuild (w : MWBase.World) (e : Externals) (self : AiPackage)
    (actor : MWWorld.Ptr) (start dest : Point) (isStuck : Bool) : StepResult :=
  let recalc := doesPathNeedRecalc e self dest actor.cell
  let needPathRecalc := recalc.1
  let self := recalc.2
  let clear : Bool × AiPackage :=
    if needPathRecalc = false then checkWayIsClearForActor w e self start dest actor
    else (true, self)
  let isWayClear := clear.1
  let self := clear.2
  if isWayClear = false ∨ needPathRecalc = true then
    if isStuck = true ∨ isWayClear = false then
      { self := pathTo.buildSynced w e self actor start dest false, calls := [] }
    else
      let shortcut := shortcutPath w e self start dest actor (some false)
      if shortcut.ret = false then
        { self := pathTo.buildSynced w e shortcut.self actor start dest
            (shortcut.destInLOS.getD false)
          calls := shortcut.calls }
      else { self := shortcut.self, calls := shortcut.calls }
  else { self := self, calls := [] }

/-- The far-destination append of `pathTo` (lines 116-122), on the path finder. -/
def pathTo.appendDest (e : Externals) (mPathFinder : PathFinder) (dest : Point) : PathFinder :=
  match mPathFinder.getPath.getLast? with
  | none => mPathFinder
  | some lastPos =>
    if distance e.sqrt dest lastPos > 100 then mPathFinder.addPointToPath dest
    else mPathFinder

/-- The body of the reaction step of `pathTo` (lines 74-124). -/
def pathTo.react (w : MWBase.World) (e : Externals) (self : AiPackage)
    (actor : MWWorld.Ptr) (start dest : Point) : StepResult :=
  let isStuck := pathTo.isStuck e self actor start dest
  let self : AiPackage := { self with mLastActorPos := actor.position.asVec3 }
  let rebuilt := pathTo.rebuild w e self actor start dest isStuck
  let self := rebuilt.self
  let self : AiPackage :=
    { self with mPathFinder := pathTo.appendDest e self.mPathFinder dest }
  { self := { self with mTimer := 0 }, calls := rebuilt.calls }

/-- The reaction step of `pathTo` (lines 72-125) with its guard, on the state whose timer
has been advanced: the state it leaves and the calls it makes. -/
def pathTo.reactionStep (w : MWBase.World) (e : Externals) (self : AiPackage)
    (actor : MWWorld.Ptr) (dest : Point) (destTolerance : ℚ) : StepResult :=
  let start := PathFinder.MakePathgridPoint actor.position
  let distToNextWaypoint := distance e.sqrt start dest
  let isDestReached := decide (distToNextWaypoint ≤ destTolerance)
  if isDestReached = false ∧ self.mTimer > e.AI_REACTION_TIME then
    pathTo.react w e self actor start dest
  else { self := self, calls := [] }

/-- `AiPackage::pathTo`. -/
def pathTo (w : MWBase.World) (e : Externals) (self : AiPackage) (actor : MWWorld.Ptr)
    (dest : Point) (duration : ℚ) (destTolerance : ℚ) : PathToResult :=
  let self : AiPackage := { self with mTimer := self.mTimer + duration }
  let pos := actor.position
  if isNearInactiveCell w e pos then
    { ret := false, self := self, movement := { actor.movement with mPosition1 := 0 },
      calls := [] }
  else
    let start := PathFinder.MakePathgridPoint pos
    let distToNextWaypoint := distance e.sqrt start dest
    let isDestReached := decide (distToNextWaypoint ≤ destTolerance)
    let step := pathTo.reactionStep w e self actor dest destTolerance
    let self := step.self
    let completed : Bool × PathFinder :=
      if isDestReached then (true, self.mPathFinder)
      else self.mPathFinder.checkPathCompleted pos.pos.x pos.pos.y PathFinder.PathTolerance
    let self : AiPackage := { self with mPathFinder := completed.2 }
    if completed.1 then
      { ret := true, self := self
        movement := { actor.movement with mPosition0 := 0, mPosition1 := 0, mPosition2 := 0 }
        calls := step.calls ++
          [WorldCall.zTurn (getZAngleToPoint e.atan2 start dest),
           WorldCall.smoothTurn (getXAngleToPoint e.sqrt e.asin start dest) 0] }
    else
      let evade := evadeObstacles e self actor duration pos
      { ret := false, self := evade.self, movement := evade.movement
        calls := step.calls ++ evade.calls ++
          [WorldCall.zTurn (evade.self.mPathFinder.getZAngleToNext e.atan2 pos.pos.x pos.pos.y),
           WorldCall.smoothTurn
             (evade.self.mPathFinder.getXAngleToNext e.sqrt e.asin pos.pos.x pos.pos.y
               pos.pos.z) 0] }

/-- The controller states reachable from the freshly constructed one through calls to
`checkWayIsClearForActor` and `shortcutPath`, on any world and with any arguments. -/
inductive Reachable (e : Externals) : AiPackage → Prop where
  | fresh : Reachable e (AiPackage.new e)
  | afterCheckWay (w : MWBase.World) (self : AiPackage) (startPoint endPoint : Point)
      (actor : MWWorld.Ptr) :
      Reachable e self →
      Reachable e (checkWayIsClearForActor w e self startPoint endPoint actor).2
  | afterShortcut (w : MWBase.World) (self : AiPackage) (startPoint endPoint : Point)
      (actor : MWWorld.Ptr) (destInLOS : Option Bool) :
      Reachable e self →
      Reachable e (shortcutPath w e self startPoint endPoint actor destInLOS).self

end AiPackage

/-! ## Invariants of the scan of `getClosestReachablePoint` -/

/-- The initial values of the loop variables of `getClosestReachablePoint`. -/
def getClosestReachablePoint.init : ClosestReachableState :=
  { closestDistanceBetween := FLT_MAX, closestDistanceReachable := FLT_MAX,
    closestIndex := 0, closestReachableIndex := 0 }

/-- What the scan knows about the reachable minimum after the points of index below `k`:
either nothing has been recorded and every connected point so far is at squared distance at
least `FLT_MAX`, or the recorded index is a connected point below `k` that is at least as
close as every connected point so far. -/
def getClosestReachablePoint.ReachableInvariant (connected : Nat → Nat → Bool)
    (pos : osg.Vec3f) (start : Nat) (pts : List Point) (k : Nat)
    (s : ClosestReachableState) : Prop :=
  (s.closestDistanceReachable = FLT_MAX ∧ s.closestReachableIndex = 0 ∧
    ∀ j, j < k → connected start j = true →
      FLT_MAX ≤ distanceSquared (pts.getD j ⟨0, 0, 0⟩) pos) ∨
  (s.closestReachableIndex < k ∧ connected start s.closestReachableIndex = true ∧
    s.closestDistanceReachable =
      distanceSquared (pts.getD s.closestReachableIndex ⟨0, 0, 0⟩) pos ∧
    s.closestDistanceReachable < FLT_MAX ∧
    ∀ j, j < k → connected start j = true →
      s.closestDistanceReachable ≤ distanceSquared (pts.getD j ⟨0, 0, 0⟩) pos)

/-- What the scan knows about the global minimum after the points of index below `k`: the
global minimum does not exceed the reachable minimum, and either nothing has been recorded
and every point so far is at squared distance at least `FLT_MAX`, or the recorded index is
the first point below `k` that is at least as close as every point so far. -/
def getClosestReachablePoint.GlobalInvariant (pos : osg.Vec3f) (pts : List Point) (k : Nat)
    (s : ClosestReachableState) : Prop :=
  s.closestDistanceBetween ≤ s.closestDistanceReachable ∧
  ((s.closestDistanceBetween = FLT_MAX ∧ s.closestIndex = 0 ∧
      ∀ j, j < k → FLT_MAX ≤ distanceSquared (pts.getD j ⟨0, 0, 0⟩) pos) ∨
    (s.closestIndex < k ∧
      s.closestDistanceBetween = distanceSquared (pts.getD s.closestIndex ⟨0, 0, 0⟩) pos ∧
      s.closestDistanceBetween < FLT_MAX ∧
      (∀ j, j < k → s.closestDistanceBetween ≤ distanceSquared (pts.getD j ⟨0, 0, 0⟩) pos) ∧
      (∀ j, j < s.closestIndex →
        s.closestDistanceBetween < distanceSquared (pts.getD j ⟨0, 0, 0⟩) pos)))

/-! ## Sample worlds

Concrete worlds on which the theorems below are instantiated. -/

/-- A world whose cells carry no pathgrid; every ray hits after 200 units. -/
def sampleWorldNoGrid : MWBase.World where
  searchPathgrid := fun _ => none
  converter := fun _ => ⟨PathFinder.MakeOsgVec3, id, id⟩
  isPointConnected := fun _ _ _ => true
  aStarSearch := fun _ _ _ => []
  getDistToNearestRayHit := fun _ _ _ => 200
  castRay := fun _ _ _ _ _ _ => false
  isSwimming := fun _ => false
  isFlying := fun _ => false
  playerCell := 0
  isExterior := fun _ => false

/-- A world whose cells all carry the two-node pathgrid (0,0,0) - (10,0,0), with local and
world coordinates equal, every two nodes connected and a graph search that answers with the
two nodes in order. -/
def sampleWorldLine : MWBase.World where
  searchPathgrid := fun _ => some ⟨[⟨0, 0, 0⟩, ⟨10, 0, 0⟩]⟩
  converter := fun _ => ⟨PathFinder.MakeOsgVec3, id, id⟩
  isPointConnected := fun _ _ _ => true
  aStarSearch := fun _ _ _ => [⟨0, 0, 0⟩, ⟨10, 0, 0⟩]
  getDistToNearestRayHit := fun _ _ _ => 200
  castRay := fun _ _ _ _ _ _ => false
  isSwimming := fun _ => false
  isFlying := fun _ => false
  playerCell := 0
  isExterior := fun _ => false

/-- A world whose cells all carry the one-node pathgrid (4097,0,0), with local and world
coordinates equal and the node connected to itself. -/
def sampleWorldNode : MWBase.World where
  searchPathgrid := fun _ => some ⟨[⟨4097, 0, 0⟩]⟩
  converter := fun _ => ⟨PathFinder.MakeOsgVec3, id, id⟩
  isPointConnected := fun _ _ _ => true
  aStarSearch := fun _ _ _ => []
  getDistToNearestRayHit := fun _ _ _ => 200
  castRay := fun _ _ _ _ _ _ => false
  isSwimming := fun _ => false
  isFlying := fun _ => false
  playerCell := 0
  isExterior := fun _ => false

/-- A world in which the surface below every point lies at height `height`: the downward
ray from `origin` reports the distance `origin.z - height`. -/
def sampleWorldSurface (height : ℚ) : MWBase.World where
  searchPathgrid := fun _ => none
  converter := fun _ => ⟨PathFinder.MakeOsgVec3, id, id⟩
  isPointConnected := fun _ _ _ => true
  aStarSearch := fun _ _ _ => []
  getDistToNearestRayHit := fun origin _ _ => origin.z - height
  castRay := fun _ _ _ _ _ _ => false
  isSwimming := fun _ => false
  isFlying := fun _ => false
  playerCell := 0
  isExterior := fun _ => false

/-- Newton iteration for the integer square root of `n` from the estimate `x`. -/
def sampleSqrt.iter : Nat → Nat → Nat → Nat
  | 0, _, x => x
  | fuel + 1, n, x =>
    let y := (x + n / x) / 2
    if y < x then sampleSqrt.iter fuel n y else x

/-- A square root for the sample runs: the integer square roots of numerator and
denominator, exact on the squares of rationals. -/
def sampleSqrt (q : ℚ) : ℚ :=
  (sampleSqrt.iter q.num.toNat q.num.toNat q.num.toNat : ℚ) /
    (sampleSqrt.iter q.den q.den q.den : ℚ)

/-- A world without pathgrids in which the surface below every point lies at height
`height` and the direct ray cast answers `blocked`. -/
def sampleWorldRay (blocked : Bool) (height : ℚ) : MWBase.World where
  searchPathgrid := fun _ => none
  converter := fun _ => ⟨PathFinder.MakeOsgVec3, id, id⟩
  isPointConnected := fun _ _ _ => true
  aStarSearch := fun _ _ _ => []
  getDistToNearestRayHit := fun origin _ _ => origin.z - height
  castRay := fun _ _ _ _ _ _ => blocked
  isSwimming := fun _ => false
  isFlying := fun _ => false
  playerCell := 0
  isExterior := fun _ => false

/-- A world whose player cell is an exterior cell with local and world coordinates equal. -/
def sampleWorldExterior : MWBase.World where
  searchPathgrid := fun _ => none
  converter := fun _ => ⟨PathFinder.MakeOsgVec3, id, id⟩
  isPointConnected := fun _ _ _ => true
  aStarSearch := fun _ _ _ => []
  getDistToNearestRayHit := fun _ _ _ => 200
  castRay := fun _ _ _ _ _ _ => false
  isSwimming := fun _ => false
  isFlying := fun _ => false
  playerCell := 0
  isExterior := fun _ => true

/-- Externals for the sample runs: reaction time 1/4, angular velocity 10, cell size 8192,
a stuck detector that answers `stuck`, a door lookup that answers `door`, and an evasive
manoeuvre that sets the sideways axis to 1. -/
def sampleExternals (stuck : Bool) (door : Option MWWorld.DoorRef) : Externals where
  AI_REACTION_TIME := 1 / 4
  MAX_VEL_ANGULAR_RADIANS := 10
  REAL_SIZE := 8192
  sqrt := sampleSqrt
  atan2 := fun _ _ => 0
  asin := fun _ => 0
  obstacleCheck := fun state _ _ => (stuck, state)
  takeEvasiveAction := fun state movement => ({ movement with mPosition0 := 1 }, state)
  getNearbyDoor := fun _ => door

/-- A closed door without lock, trap or teleport. -/
def sampleDoorClosed : MWWorld.DoorRef := ⟨false, "", 0, 0⟩

/-- A closed door with a lock of level 50. -/
def sampleDoorLocked : MWWorld.DoorRef := ⟨false, "", 50, 0⟩

/-- A ground-bound actor of speed 100 standing at (x, y, z) in cell 0, not moving. -/
def sampleActor (x y z : ℚ) : MWWorld.Ptr where
  position := ⟨⟨x, y, z⟩⟩
  cell := 0
  speed := 100
  canSwim := false
  movement := ⟨0, 0, 0⟩

/-! ## The pathgrid cache -/

theorem PathFinder.cacheValid_new (w : MWBase.World) : PathFinder.new.cacheValid w := by
  simp [PathFinder.cacheValid, PathFinder.new]

/-- With a valid cache, `buildPath` works on the pathgrid the store holds for `cell`: its
result is described by the store lookup alone. -/
theorem PathFinder.buildPath_eq (w : MWBase.World) (self : PathFinder)
    (startPoint endPoint : Point) (cell : Nat) (hv : self.cacheValid w) :
    PathFinder.buildPath w self startPoint endPoint cell =
      PathFinder.buildPath w
        { mPath := [], mPathgrid := none, mCell := none } startPoint endPoint cell := by
  obtain ⟨path, grid, c⟩ := self
  by_cases hc : c = some cell
  · subst hc
    cases grid with
    | none => simp [PathFinder.buildPath]
    | some g =>
      have hg : w.searchPathgrid cell = some g := by simpa [PathFinder.cacheValid] using hv
      simp [PathFinder.buildPath, hg]
  · simp [PathFinder.buildPath, hc]

theorem PathFinder.buildPath_cacheValid (w : MWBase.World) (self : PathFinder)
    (startPoint endPoint : Point) (cell : Nat) (hv : self.cacheValid w) :
    (PathFinder.buildPath w self startPoint endPoint cell).cacheValid w := by
  rw [PathFinder.buildPath_eq w self startPoint endPoint cell hv]
  unfold PathFinder.buildPath
  simp only [ne_eq, reduceCtorEq, not_false_eq_true, Option.isNone_none, or_self, if_true]
  cases hg : w.searchPathgrid cell with
  | none => simp [PathFinder.cacheValid]
  | some g =>
    simp only
    split_ifs <;> simp [PathFinder.cacheValid, hg]

theorem PathFinder.buildSyncedPath_cacheValid (w : MWBase.World) (self : PathFinder)
    (startPoint endPoint : Point) (cell : Nat) (hv : self.cacheValid w) :
    (PathFinder.buildSyncedPath w self startPoint endPoint cell).cacheValid w := by
  have hb := PathFinder.buildPath_cacheValid w self startPoint endPoint cell hv
  unfold PathFinder.buildSyncedPath
  split_ifs
  · exact hb
  · split
    · exact hb
    · simp only
      split_ifs
      · split
        · split_ifs
          · simpa [PathFinder.cacheValid] using hb
          · exact hb
        · exact hb
      · exact hb

theorem PathFinder.checkPathCompleted_cacheValid (w : MWBase.World) (self : PathFinder)
    (x y tolerance : ℚ) (hv : self.cacheValid w) :
    (PathFinder.checkPathCompleted self x y tolerance).2.cacheValid w := by
  unfold PathFinder.checkPathCompleted
  split
  · exact hv
  · simp only
    split_ifs <;> simpa [PathFinder.cacheValid] using hv

/-- The path built from a fresh cache on a cell whose pathgrid `grid` has points. -/
theorem PathFinder.buildPath_fresh_mPath (w : MWBase.World) (startPoint endPoint : Point)
    (cell : Nat) (grid : ESM.Pathgrid) (hg : w.searchPathgrid cell = some grid)
    (hne : grid.mPoints ≠ []) :
    (PathFinder.buildPath w { mPath := [], mPathgrid := none, mCell := none }
        startPoint endPoint cell).mPath =
      (let converter := w.converter cell
       let startLocal := converter.toLocalVec3 startPoint
       let endLocal := converter.toLocalVec3 endPoint
       let startNode := getClosestPoint grid startLocal
       let endNode := getClosestReachablePoint grid (w.isPointConnected cell) endLocal startNode
       if (endLocal.fsub startLocal).length2 <
              distanceSquared (grid.mPoints.getD startNode ⟨0, 0, 0⟩) startLocal ∨
            (endLocal.fsub startLocal).length2 <
              distanceSquared (grid.mPoints.getD endNode.1 ⟨0, 0, 0⟩) endLocal
       then [endPoint]
       else
         (if startNode = endNode.1 then
            [converter.toWorld (grid.mPoints.getD startNode ⟨0, 0, 0⟩)]
          else (w.aStarSearch cell startNode endNode.1).map converter.toWorld) ++
         (if endNode.2 = true then [endPoint] else [])) := by
  have hne2 : grid.mPoints.isEmpty = false := by
    cases hp : grid.mPoints with
    | nil => exact absurd hp hne
    | cons a l => rfl
  unfold PathFinder.buildPath
  simp only [ne_eq, reduceCtorEq, not_false_eq_true, Option.isNone_none, or_self, if_true, hg,
    hne2, Bool.false_eq_true, if_false, List.nil_append]
  split_ifs <;> simp

/-! ## Single-precision rounding: sign and size of the rounded value -/

theorem roundToFloat_zero : roundToFloat 0 = 0 := by
  simp [roundToFloat]

/-- The halving count is the binary logarithm rounded down. -/
theorem roundToFloat.log2_spec (fuel n : Nat) (hn : 0 < n) (hf : n ≤ fuel) :
    2 ^ roundToFloat.log2 fuel n ≤ n ∧ n < 2 ^ (roundToFloat.log2 fuel n + 1) := by
  induction fuel generalizing n with
  | zero => omega
  | succ fuel ih =>
    unfold roundToFloat.log2
    by_cases h2 : n < 2
    · rw [if_pos h2]
      constructor
      · simpa using hn
      · simpa using h2
    · rw [if_neg h2]
      have hhalf : 0 < n / 2 := Nat.div_pos (by omega) (by norm_num)
      have hle : n / 2 ≤ fuel := by omega
      obtain ⟨h1, h3⟩ := ih (n / 2) hhalf hle
      constructor
      · rw [pow_succ]
        omega
      · rw [pow_succ]
        omega

theorem roundToFloat.nearestEven_le (num den : Nat) :
    (roundToFloat.nearestEven num den : ℚ) ≤ (num : ℚ) / (den : ℚ) + 1 := by
  unfold roundToFloat.nearestEven
  have h := @Nat.cast_div_le ℚ _ num den
  simp only
  split_ifs
  · push_cast
    linarith
  · linarith

theorem roundToFloat.exponent_le (a b : Nat) :
    roundToFloat.exponent a b ≤
      (roundToFloat.log2 a a : Int) - (roundToFloat.log2 b b : Int) := by
  unfold roundToFloat.exponent
  simp only
  split_ifs <;> omega

/-- The unit in the last place used for a/b does not exceed a/b. -/
theorem roundToFloat.ulp_le (a b : Nat) (ha : 0 < a) (hb : 0 < b) :
    (2 : ℚ) ^ (-(23 - roundToFloat.exponent a b)) ≤ (a : ℚ) / (b : ℚ) := by
  obtain ⟨ha1, -⟩ := roundToFloat.log2_spec a a ha (le_refl a)
  obtain ⟨-, hb2⟩ := roundToFloat.log2_spec b b hb (le_refl b)
  have hbq : (0 : ℚ) < b := by exact_mod_cast hb
  have ha1q : (2 : ℚ) ^ (roundToFloat.log2 a a) ≤ (a : ℚ) := by exact_mod_cast ha1
  have hb2q : (b : ℚ) ≤ (2 : ℚ) ^ (roundToFloat.log2 b b + 1) := by exact_mod_cast le_of_lt hb2
  have hexp := roundToFloat.exponent_le a b
  have hmono : (2 : ℚ) ^ (-(23 - roundToFloat.exponent a b)) ≤
      (2 : ℚ) ^ ((roundToFloat.log2 a a : Int) - ((roundToFloat.log2 b b + 1 : Nat) : Int)) := by
    apply zpow_le_zpow_right₀ (by norm_num)
    push_cast
    omega
  refine le_trans hmono ?_
  rw [zpow_sub₀ (by norm_num), zpow_natCast, zpow_natCast]
  exact div_le_div₀ (Nat.cast_nonneg a) ha1q hbq hb2q

theorem roundToFloat.positive_nonneg (a b : Nat) : 0 ≤ roundToFloat.positive a b := by
  unfold roundToFloat.positive
  exact mul_nonneg (Nat.cast_nonneg _) (le_of_lt (zpow_pos (by norm_num) _))

theorem roundToFloat.positive_le (a b : Nat) (ha : 0 < a) (hb : 0 < b) :
    roundToFloat.positive a b ≤ 2 * ((a : ℚ) / (b : ℚ)) := by
  have hulp := roundToFloat.ulp_le a b ha hb
  have hbq : (0 : ℚ) < b := by exact_mod_cast hb
  have hpow : (0 : ℚ) < (2 : ℚ) ^ (-(23 - roundToFloat.exponent a b)) := zpow_pos (by norm_num) _
  unfold roundToFloat.positive
  simp only
  have hn : ((if 0 ≤ 23 - roundToFloat.exponent a b then
        roundToFloat.nearestEven (a * 2 ^ (23 - roundToFloat.exponent a b).toNat) b
      else roundToFloat.nearestEven a (b * 2 ^ (-(23 - roundToFloat.exponent a b)).toNat) : Nat) : ℚ)
      ≤ (a : ℚ) / (b : ℚ) * (2 : ℚ) ^ (23 - roundToFloat.exponent a b) + 1 := by
    by_cases hs : 0 ≤ 23 - roundToFloat.exponent a b
    · rw [if_pos hs]
      refine le_trans (roundToFloat.nearestEven_le _ _) ?_
      have hcast : ((2 : ℚ) ^ (23 - roundToFloat.exponent a b)) =
          ((2 ^ (23 - roundToFloat.exponent a b).toNat : Nat) : ℚ) := by
        conv_lhs => rw [← Int.toNat_of_nonneg hs]
        rw [zpow_natCast]
        push_cast
        rfl
      rw [hcast]
      push_cast
      apply le_of_eq
      ring
    · rw [if_neg hs]
      refine le_trans (roundToFloat.nearestEven_le _ _) ?_
      have hs2 : 0 ≤ -(23 - roundToFloat.exponent a b) := by omega
      have hcast : ((2 : ℚ) ^ (23 - roundToFloat.exponent a b)) =
          (((2 ^ (-(23 - roundToFloat.exponent a b)).toNat : Nat) : ℚ))⁻¹ := by
        have : (23 - roundToFloat.exponent a b) =
            -(((-(23 - roundToFloat.exponent a b)).toNat : Int)) := by
          rw [Int.toNat_of_nonneg hs2]; ring
        conv_lhs => rw [this]
        rw [zpow_neg, zpow_natCast]
        push_cast
        rfl
      rw [hcast]
      push_cast
      apply le_of_eq
      field_simp
  calc _ ≤ ((a : ℚ) / (b : ℚ) * (2 : ℚ) ^ (23 - roundToFloat.exponent a b) + 1) *
        (2 : ℚ) ^ (-(23 - roundToFloat.exponent a b)) :=
        mul_le_mul_of_nonneg_right hn hpow.le
    _ = (a : ℚ) / (b : ℚ) + (2 : ℚ) ^ (-(23 - roundToFloat.exponent a b)) := by
        rw [add_mul, one_mul, mul_assoc, ← zpow_add₀ (by norm_num : (2 : ℚ) ≠ 0)]
        simp
    _ ≤ 2 * ((a : ℚ) / (b : ℚ)) := by linarith

theorem roundToFloat_neg (q : ℚ) : roundToFloat (-q) = -roundToFloat q := by
  unfold roundToFloat
  rcases lt_trichotomy q 0 with h | h | h
  · have h1 : ¬ q = 0 := ne_of_lt h
    have h2 : ¬ -q = 0 := by simpa using h1
    have h3 : 0 < -q := by linarith
    have h4 : ¬ 0 < q := by linarith
    simp [h1, h3, h4]
  · simp [h]
  · have h1 : ¬ q = 0 := ne_of_gt h
    have h2 : ¬ -q = 0 := by simpa using h1
    have h3 : ¬ 0 < -q := by linarith
    simp [h1, h3, h]

/-- Rounding keeps the sign: a non-negative value rounds to a non-negative float. -/
theorem roundToFloat_nonneg (q : ℚ) (hq : 0 ≤ q) : 0 ≤ roundToFloat q := by
  unfold roundToFloat
  by_cases h0 : q = 0
  · simp [h0]
  · have hpos : 0 < q := lt_of_le_of_ne hq (Ne.symm h0)
    rw [if_neg h0, if_pos hpos]
    exact roundToFloat.positive_nonneg _ _

/-- Rounding at most doubles a value (it changes it by at most half a unit in the last
place). -/
theorem roundToFloat_le (q : ℚ) (hq : 0 ≤ q) : roundToFloat q ≤ 2 * q := by
  by_cases h0 : q = 0
  · simp [h0, roundToFloat]
  · have hpos : 0 < q := lt_of_le_of_ne hq (Ne.symm h0)
    have hnum : 0 < q.num := Rat.num_pos.mpr hpos
    have hcast : ((q.num.toNat : Nat) : ℚ) = (q.num : ℚ) := by
      have : ((q.num.toNat : Nat) : Int) = q.num := Int.toNat_of_nonneg hnum.le
      exact_mod_cast this
    have h := roundToFloat.positive_le q.num.toNat q.den (by omega) q.den_pos
    rw [hcast, Rat.num_div_den] at h
    unfold roundToFloat
    rw [if_neg h0, if_pos hpos]
    exact h

theorem abs_roundToFloat_le (q : ℚ) : |roundToFloat q| ≤ 2 * |q| := by
  rcases le_total 0 q with h | h
  · rw [abs_of_nonneg (roundToFloat_nonneg q h), abs_of_nonneg h]
    exact roundToFloat_le q h
  · have h2 : 0 ≤ -q := by linarith
    have h3 := roundToFloat_le (-q) h2
    have h4 := roundToFloat_nonneg (-q) h2
    rw [roundToFloat_neg] at h3 h4
    rw [abs_of_nonpos (by linarith), abs_of_nonpos h]
    linarith

/-! ## The scans over the pathgrid points -/

theorem length2_nonneg (v : osg.Vec3f) : 0 ≤ v.length2 := by
  unfold osg.Vec3f.length2
  exact roundToFloat_nonneg _
    (add_nonneg
      (roundToFloat_nonneg _
        (add_nonneg (roundToFloat_nonneg _ (mul_self_nonneg _))
          (roundToFloat_nonneg _ (mul_self_nonneg _))))
      (roundToFloat_nonneg _ (mul_self_nonneg _)))

theorem distanceSquared_nonneg (p : Point) (pos : osg.Vec3f) : 0 ≤ distanceSquared p pos := by
  unfold distanceSquared
  exact length2_nonneg _

theorem length2_fsub_self (v : osg.Vec3f) : (v.fsub v).length2 = 0 := by
  simp [osg.Vec3f.length2, osg.Vec3f.fsub, roundToFloat_zero]

theorem distanceSquared_self (p : Point) :
    distanceSquared p (PathFinder.MakeOsgVec3 p) = 0 := by
  unfold distanceSquared
  exact length2_fsub_self _

theorem fsub_component_bound (m : Int) (c : ℚ) (hm : |m| ≤ 2 ^ 31) (hc : |c| ≤ 2 ^ 40) :
    |roundToFloat (roundToFloat (m : ℚ) - c)| ≤ 2 ^ 42 := by
  have hmq : |(m : ℚ)| ≤ 2 ^ 31 := by
    have : ((|m| : Int) : ℚ) ≤ ((2 ^ 31 : Int) : ℚ) := by exact_mod_cast hm
    rw [Int.cast_abs] at this
    simpa using this
  have h1 := abs_roundToFloat_le (m : ℚ)
  have h2 := abs_roundToFloat_le (roundToFloat (m : ℚ) - c)
  have h3 := abs_sub (roundToFloat (m : ℚ)) c
  linarith

theorem roundToFloat_square_bound (x : ℚ) (hx : |x| ≤ 2 ^ 42) :
    0 ≤ roundToFloat (x * x) ∧ roundToFloat (x * x) ≤ 2 ^ 85 := by
  have hsq : x * x ≤ 2 ^ 84 := by
    rw [← abs_mul_abs_self x]
    calc |x| * |x| ≤ 2 ^ 42 * 2 ^ 42 := mul_le_mul hx hx (abs_nonneg x) (by norm_num)
      _ = 2 ^ 84 := by norm_num
  have h := roundToFloat_le (x * x) (mul_self_nonneg x)
  exact ⟨roundToFloat_nonneg _ (mul_self_nonneg x), by linarith⟩

/-- Within the range of the coordinates the code handles (node coordinates that fit an
`int`, position components up to 2^40 in magnitude) every computed squared distance is
below `FLT_MAX`. -/
theorem distanceSquared_lt_FLT_MAX (p : Point) (pos : osg.Vec3f)
    (hp : |p.mX| ≤ 2 ^ 31 ∧ |p.mY| ≤ 2 ^ 31 ∧ |p.mZ| ≤ 2 ^ 31)
    (hpos : |pos.x| ≤ 2 ^ 40 ∧ |pos.y| ≤ 2 ^ 40 ∧ |pos.z| ≤ 2 ^ 40) :
    distanceSquared p pos < FLT_MAX := by
  obtain ⟨hx, hy, hz⟩ := hp
  obtain ⟨hpx, hpy, hpz⟩ := hpos
  obtain ⟨a0, a1⟩ := roundToFloat_square_bound _ (fsub_component_bound p.mX pos.x hx hpx)
  obtain ⟨b0, b1⟩ := roundToFloat_square_bound _ (fsub_component_bound p.mY pos.y hy hpy)
  obtain ⟨c0, c1⟩ := roundToFloat_square_bound _ (fsub_component_bound p.mZ pos.z hz hpz)
  unfold distanceSquared osg.Vec3f.length2 osg.Vec3f.fsub PathFinder.MakeOsgVec3 FLT_MAX
  simp only
  have s1 := roundToFloat_le _ (add_nonneg a0 b0)
  have s0 := roundToFloat_nonneg _ (add_nonneg a0 b0)
  have s2 := roundToFloat_le _ (add_nonneg s0 c0)
  have hbig : (2 : ℚ) * (2 * (2 ^ 85 + 2 ^ 85) + 2 ^ 85) <
      340282346638528859811704183484516925440 := by norm_num
  linarith

/-- Invariant of the scan of `getClosestPoint`: the point recorded as closest splits the
visited points into strictly farther ones before it and not closer ones after it. -/
theorem getClosestPoint.loop_spec (pos : osg.Vec3f) (rest pre : List Point) (q : Point)
    (mid : List Point)
    (hpre : ∀ p ∈ pre, distanceSquared q pos < distanceSquared p pos)
    (hmid : ∀ p ∈ mid, distanceSquared q pos ≤ distanceSquared p pos) :
    ∃ pre2 q2 post2, pre ++ q :: mid ++ rest = pre2 ++ q2 :: post2 ∧
      getClosestPoint.loop pos rest (pre ++ q :: mid).length (distanceSquared q pos) pre.length
        = pre2.length ∧
      (∀ p ∈ pre2, distanceSquared q2 pos < distanceSquared p pos) ∧
      (∀ p ∈ post2, distanceSquared q2 pos ≤ distanceSquared p pos) := by
  induction rest generalizing pre q mid with
  | nil => exact ⟨pre, q, mid, by simp, by simp [getClosestPoint.loop], hpre, hmid⟩
  | cons a rest ih =>
    unfold getClosestPoint.loop
    by_cases hlt : distanceSquared a pos < distanceSquared q pos
    · simp only [hlt, if_true]
      have h := ih (pre ++ q :: mid) a []
        (by
          intro p hp
          rcases List.mem_append.mp hp with h1 | h1
          · exact lt_trans hlt (hpre p h1)
          · rcases List.mem_cons.mp h1 with h2 | h2
            · rw [h2]; exact hlt
            · exact lt_of_lt_of_le hlt (hmid p h2))
        (by simp)
      obtain ⟨pre2, q2, post2, h1, h2, h3, h4⟩ := h
      refine ⟨pre2, q2, post2, ?_, ?_, h3, h4⟩
      · rw [← h1]; simp
      · rw [← h2]; simp [Nat.add_assoc]
    · simp only [hlt, if_false]
      have h := ih pre q (mid ++ [a]) hpre
        (by
          intro p hp
          rcases List.mem_append.mp hp with h1 | h1
          · exact hmid p h1
          · rw [List.mem_singleton.mp h1]; exact not_lt.mp hlt)
      obtain ⟨pre2, q2, post2, h1, h2, h3, h4⟩ := h
      refine ⟨pre2, q2, post2, ?_, ?_, h3, h4⟩
      · rw [← h1]; simp
      · rw [← h2]; simp [Nat.add_assoc]

/-- On a non-empty grid `getClosestPoint` returns the position of a point that is strictly
closer to `pos` than every point before it and at least as close as every point after it. -/
theorem getClosestPoint_split (grid : ESM.Pathgrid) (pos : osg.Vec3f)
    (hne : grid.mPoints ≠ []) :
    ∃ pre q post, grid.mPoints = pre ++ q :: post ∧ getClosestPoint grid pos = pre.length ∧
      (∀ p ∈ pre, distanceSquared q pos < distanceSquared p pos) ∧
      (∀ p ∈ post, distanceSquared q pos ≤ distanceSquared p pos) := by
  unfold getClosestPoint
  cases hp : grid.mPoints with
  | nil => exact absurd hp hne
  | cons p0 rest =>
    have h := getClosestPoint.loop_spec pos rest [] p0 [] (by simp) (by simp)
    simpa using h

theorem getClosestReachablePoint.loop_append (connected : Nat → Nat → Bool)
    (pos : osg.Vec3f) (start : Nat) (l1 l2 : List Point) (counter : Nat)
    (s : ClosestReachableState) :
    getClosestReachablePoint.loop connected pos start (l1 ++ l2) counter s =
      getClosestReachablePoint.loop connected pos start l2 (counter + l1.length)
        (getClosestReachablePoint.loop connected pos start l1 counter s) := by
  induction l1 generalizing counter s with
  | nil => simp [getClosestReachablePoint.loop]
  | cons a l1 ih =>
    have hlen : counter + (a :: l1).length = counter + 1 + l1.length := by
      simp only [List.length_cons]; omega
    rw [List.cons_append, hlen]
    simp only [getClosestReachablePoint.loop]
    exact ih (counter + 1) _

/-- While every visited point is at a positive distance, both running minima stay
positive. -/
theorem getClosestReachablePoint.loop_pos (connected : Nat → Nat → Bool)
    (pos : osg.Vec3f) (start : Nat) (l : List Point) (counter : Nat)
    (s : ClosestReachableState) (hl : ∀ p ∈ l, 0 < distanceSquared p pos)
    (hB : 0 < s.closestDistanceBetween) (hR : 0 < s.closestDistanceReachable) :
    0 < (getClosestReachablePoint.loop connected pos start l counter s).closestDistanceBetween ∧
    0 < (getClosestReachablePoint.loop connected pos start l counter s).closestDistanceReachable
    := by
  induction l generalizing counter s with
  | nil => exact ⟨hB, hR⟩
  | cons a l ih =>
    simp only [getClosestReachablePoint.loop]
    have ha : 0 < distanceSquared a pos := hl a (List.mem_cons_self a l)
    apply ih
    · intro p hp
      exact hl p (List.mem_cons_of_mem a hp)
    · unfold getClosestReachablePoint.step
      simp only
      split_ifs <;> simp_all
    · unfold getClosestReachablePoint.step
      simp only
      split_ifs <;> simp_all

/-- A point at distance zero that is connected to `start` is recorded as both the closest
and the closest reachable point when both running minima are still positive. -/
theorem getClosestReachablePoint.step_zero (connected : Nat → Nat → Bool)
    (pos : osg.Vec3f) (start : Nat) (p : Point) (counter : Nat) (s : ClosestReachableState)
    (hp : distanceSquared p pos = 0) (hc : connected start counter = true)
    (hB : 0 < s.closestDistanceBetween) (hR : 0 < s.closestDistanceReachable) :
    getClosestReachablePoint.step connected pos start p counter s =
      { closestDistanceBetween := 0, closestDistanceReachable := 0,
        closestIndex := counter, closestReachableIndex := counter } := by
  unfold getClosestReachablePoint.step
  simp [hp, hc, hB, hR]

/-- Once the closest reachable distance is zero the scan changes nothing any more. -/
theorem getClosestReachablePoint.loop_fixed (connected : Nat → Nat → Bool)
    (pos : osg.Vec3f) (start : Nat) (l : List Point) (counter : Nat)
    (s : ClosestReachableState) (hR : s.closestDistanceReachable = 0) :
    getClosestReachablePoint.loop connected pos start l counter s = s := by
  induction l generalizing counter with
  | nil => rfl
  | cons a l ih =>
    simp only [getClosestReachablePoint.loop]
    have hstep : getClosestReachablePoint.step connected pos start a counter s = s := by
      unfold getClosestReachablePoint.step
      simp only [hR]
      rw [if_neg (not_lt.mpr (distanceSquared_nonneg a pos))]
    rw [hstep]
    exact ih (counter + 1)

theorem FLT_MAX_pos : 0 < FLT_MAX := by
  unfold FLT_MAX
  norm_num

/-- When the point at position `pre.length` is at distance zero from `pos`, every earlier
point is at a positive distance and that point is connected to `start`, the scan of
`getClosestReachablePoint` returns its position and reports it as the global closest. -/
theorem getClosestReachablePoint_at_zero (grid : ESM.Pathgrid)
    (connected : Nat → Nat → Bool) (pos : osg.Vec3f) (start : Nat)
    (pre : List Point) (q : Point) (post : List Point)
    (hsplit : grid.mPoints = pre ++ q :: post)
    (hpre : ∀ p ∈ pre, 0 < distanceSquared p pos) (hq : distanceSquared q pos = 0)
    (hc : connected start pre.length = true) :
    getClosestReachablePoint grid connected pos start = (pre.length, true) := by
  unfold getClosestReachablePoint
  rw [hsplit, getClosestReachablePoint.loop_append]
  simp only [getClosestReachablePoint.loop, Nat.zero_add]
  obtain ⟨hB, hR⟩ := getClosestReachablePoint.loop_pos connected pos start pre 0
    { closestDistanceBetween := FLT_MAX, closestDistanceReachable := FLT_MAX,
      closestIndex := 0, closestReachableIndex := 0 } hpre FLT_MAX_pos FLT_MAX_pos
  rw [getClosestReachablePoint.step_zero connected pos start q pre.length _ hq hc hB hR,
    getClosestReachablePoint.loop_fixed connected pos start post _ _ rfl]
  simp

/-! ## Claims about `buildPath` -/

/-- C1: on a cell that has no pathgrid, or a pathgrid with zero points, `buildPath` leaves
the path equal to the single waypoint `[endPoint]`, whatever the start, the end and the
previous contents of the path. -/
theorem buildPath_without_pathgrid (w : MWBase.World) (self : PathFinder)
    (startPoint endPoint : Point) (cell : Nat) (hv : self.cacheValid w)
    (hgrid : w.searchPathgrid cell = none ∨
      ∃ grid, w.searchPathgrid cell = some grid ∧ grid.mPoints = []) :
    (PathFinder.buildPath w self startPoint endPoint cell).mPath = [endPoint] := by
  rw [PathFinder.buildPath_eq w self startPoint endPoint cell hv]
  unfold PathFinder.buildPath
  rcases hgrid with hnone | ⟨grid, hg, hempty⟩
  · simp [hnone]
  · simp [hg, hempty]

/-- C2: on a cell with a non-empty pathgrid, when the direct-travel short-circuit does not
apply, `buildPath` yields the node sequence of the graph search between `startNode` and
`endNode` converted to world coordinates (the single converted node when the two are the
same), followed by `endPoint` exactly when `endIsGlobalClosest` holds, and nothing else. -/
theorem buildPath_graph_route (w : MWBase.World) (self : PathFinder)
    (startPoint endPoint : Point) (cell : Nat) (grid : ESM.Pathgrid)
    (hv : self.cacheValid w) (hg : w.searchPathgrid cell = some grid)
    (hne : grid.mPoints ≠ [])
    (hlong : ¬ (((w.converter cell).toLocalVec3 endPoint).fsub
          ((w.converter cell).toLocalVec3 startPoint)).length2 <
        distanceSquared
          (grid.mPoints.getD (getClosestPoint grid ((w.converter cell).toLocalVec3 startPoint))
            ⟨0, 0, 0⟩)
          ((w.converter cell).toLocalVec3 startPoint))
    (hlong2 : ¬ (((w.converter cell).toLocalVec3 endPoint).fsub
          ((w.converter cell).toLocalVec3 startPoint)).length2 <
        distanceSquared
          (grid.mPoints.getD
            (getClosestReachablePoint grid (w.isPointConnected cell)
              ((w.converter cell).toLocalVec3 endPoint)
              (getClosestPoint grid ((w.converter cell).toLocalVec3 startPoint))).1
            ⟨0, 0, 0⟩)
          ((w.converter cell).toLocalVec3 endPoint)) :
    let startNode := getClosestPoint grid ((w.converter cell).toLocalVec3 startPoint)
    let endNode := getClosestReachablePoint grid (w.isPointConnected cell)
      ((w.converter cell).toLocalVec3 endPoint) startNode
    let endIsGlobalClosest := endNode.2
    (PathFinder.buildPath w self startPoint endPoint cell).mPath =
      (if startNode = endNode.1 then
          [(w.converter cell).toWorld (grid.mPoints.getD startNode ⟨0, 0, 0⟩)]
        else (w.aStarSearch cell startNode endNode.1).map (w.converter cell).toWorld) ++
      (if endIsGlobalClosest = true then [endPoint] else []) := by
  intro startNode endNode endIsGlobalClosest
  rw [PathFinder.buildPath_eq w self startPoint endPoint cell hv,
    PathFinder.buildPath_fresh_mPath w startPoint endPoint cell grid hg hne]
  simp only
  rw [if_neg (by
    rintro (h | h)
    · exact hlong h
    · exact hlong2 h)]

/-- C3, as stated, fails: on the cell whose pathgrid is the single node (4097,0,0), with
start (0,0,0) and end (4096,64,64), the squared straight-line distance from start to end,
4096^2 + 64^2 + 64^2 = 16785408, is less than the squared distance 4097^2 = 16785409 from
start to its nearest node; computed in single precision both are 16785408, neither
comparison of `buildPath` holds and the path is the node followed by end, not `[end]`. -/
theorem buildPath_direct_shortcircuit_counterexample :
    sampleWorldNode.searchPathgrid 0 = some ⟨[⟨4097, 0, 0⟩]⟩ ∧
    (sampleWorldNode.converter 0).toLocalVec3 ⟨0, 0, 0⟩ = ⟨0, 0, 0⟩ ∧
    (sampleWorldNode.converter 0).toLocalVec3 ⟨4096, 64, 64⟩ = ⟨4096, 64, 64⟩ ∧
    getClosestPoint ⟨[⟨4097, 0, 0⟩]⟩ ⟨0, 0, 0⟩ = 0 ∧
    ((4096 : ℚ) - 0) * (4096 - 0) + (64 - 0) * (64 - 0) + (64 - 0) * (64 - 0) <
      ((4097 : ℚ) - 0) * (4097 - 0) + (0 - 0) * (0 - 0) + (0 - 0) * (0 - 0) ∧
    ((⟨4096, 64, 64⟩ : osg.Vec3f).fsub ⟨0, 0, 0⟩).length2 = 16785408 ∧
    distanceSquared ⟨4097, 0, 0⟩ ⟨0, 0, 0⟩ = 16785408 ∧
    distanceSquared ⟨4097, 0, 0⟩ ⟨4096, 64, 64⟩ = 8193 ∧
    (PathFinder.buildPath sampleWorldNode PathFinder.new ⟨0, 0, 0⟩ ⟨4096, 64, 64⟩ 0).mPath
      = [⟨4097, 0, 0⟩, ⟨4096, 64, 64⟩] ∧
    (PathFinder.buildPath sampleWorldNode PathFinder.new ⟨0, 0, 0⟩ ⟨4096, 64, 64⟩ 0).mPath
      ≠ [⟨4096, 64, 64⟩] := by
  refine ⟨rfl, by decide!, by decide!, by decide!, by norm_num, by decide!, by decide!,
    by decide!, by decide!, by decide!⟩

/-- C3, amended: on a cell with a non-empty pathgrid, if the squared straight-line distance
from start to end (cell-local coordinates), as computed in single precision, is less than
the computed squared distance from start to its nearest node, or less than the computed
squared distance from end to its nearest reachable node, `buildPath` skips the graph and
yields the single-waypoint path `[endPoint]`. -/
theorem buildPath_direct_shortcircuit (w : MWBase.World) (self : PathFinder)
    (startPoint endPoint : Point) (cell : Nat) (grid : ESM.Pathgrid)
    (hv : self.cacheValid w) (hg : w.searchPathgrid cell = some grid)
    (hne : grid.mPoints ≠ [])
    (hshort :
      (((w.converter cell).toLocalVec3 endPoint).fsub
          ((w.converter cell).toLocalVec3 startPoint)).length2 <
        distanceSquared
          (grid.mPoints.getD (getClosestPoint grid ((w.converter cell).toLocalVec3 startPoint))
            ⟨0, 0, 0⟩)
          ((w.converter cell).toLocalVec3 startPoint) ∨
      (((w.converter cell).toLocalVec3 endPoint).fsub
          ((w.converter cell).toLocalVec3 startPoint)).length2 <
        distanceSquared
          (grid.mPoints.getD
            (getClosestReachablePoint grid (w.isPointConnected cell)
              ((w.converter cell).toLocalVec3 endPoint)
              (getClosestPoint grid ((w.converter cell).toLocalVec3 startPoint))).1
            ⟨0, 0, 0⟩)
          ((w.converter cell).toLocalVec3 endPoint)) :
    (PathFinder.buildPath w self startPoint endPoint cell).mPath = [endPoint] := by
  rw [PathFinder.buildPath_eq w self startPoint endPoint cell hv,
    PathFinder.buildPath_fresh_mPath w startPoint endPoint cell grid hg hne]
  simp only
  rw [if_pos hshort]

theorem buildPath_without_pathgrid_witness :
    PathFinder.new.cacheValid sampleWorldNoGrid ∧
    sampleWorldNoGrid.searchPathgrid 0 = none ∧
    (PathFinder.buildPath sampleWorldNoGrid PathFinder.new ⟨0, 0, 0⟩ ⟨40, 0, 0⟩ 0).mPath
      = [⟨40, 0, 0⟩] :=
  ⟨PathFinder.cacheValid_new _, rfl,
    buildPath_without_pathgrid sampleWorldNoGrid PathFinder.new ⟨0, 0, 0⟩ ⟨40, 0, 0⟩ 0
      (PathFinder.cacheValid_new _) (Or.inl rfl)⟩

theorem buildPath_graph_route_witness :
    PathFinder.new.cacheValid sampleWorldLine ∧
    (PathFinder.buildPath sampleWorldLine PathFinder.new ⟨0, 0, 0⟩ ⟨11, 0, 0⟩ 0).mPath
      = [⟨0, 0, 0⟩, ⟨10, 0, 0⟩, ⟨11, 0, 0⟩] :=
  ⟨PathFinder.cacheValid_new _,
    (buildPath_graph_route sampleWorldLine PathFinder.new ⟨0, 0, 0⟩ ⟨11, 0, 0⟩ 0
      ⟨[⟨0, 0, 0⟩, ⟨10, 0, 0⟩]⟩ (PathFinder.cacheValid_new _) rfl (by simp)
      (by decide!) (by decide!)).trans (by decide!)⟩

theorem buildPath_direct_shortcircuit_witness :
    PathFinder.new.cacheValid sampleWorldLine ∧
    (PathFinder.buildPath sampleWorldLine PathFinder.new ⟨4, 0, 0⟩ ⟨5, 0, 0⟩ 0).mPath
      = [⟨5, 0, 0⟩] :=
  ⟨PathFinder.cacheValid_new _,
    buildPath_direct_shortcircuit sampleWorldLine PathFinder.new ⟨4, 0, 0⟩ ⟨5, 0, 0⟩ 0
      ⟨[⟨0, 0, 0⟩, ⟨10, 0, 0⟩]⟩ (PathFinder.cacheValid_new _) rfl (by simp)
      (Or.inl (by decide!))⟩

/-- C4, as stated, fails: on the two-node grid with reflexive connectivity, start and end
both at the world position (10,0,0) of the node closest to start, `buildPath` yields two
waypoints, not one. -/
theorem buildPath_at_start_node_counterexample :
    sampleWorldLine.searchPathgrid 0 = some ⟨[⟨0, 0, 0⟩, ⟨10, 0, 0⟩]⟩ ∧
    (∀ i, sampleWorldLine.isPointConnected 0 i i = true) ∧
    (sampleWorldLine.converter 0).toWorld
      ((⟨[⟨0, 0, 0⟩, ⟨10, 0, 0⟩]⟩ : ESM.Pathgrid).mPoints.getD
        (getClosestPoint ⟨[⟨0, 0, 0⟩, ⟨10, 0, 0⟩]⟩
          ((sampleWorldLine.converter 0).toLocalVec3 ⟨10, 0, 0⟩)) ⟨0, 0, 0⟩) = ⟨10, 0, 0⟩ ∧
    (PathFinder.buildPath sampleWorldLine PathFinder.new ⟨10, 0, 0⟩ ⟨10, 0, 0⟩ 0).mPath
      = [⟨10, 0, 0⟩, ⟨10, 0, 0⟩] ∧
    (PathFinder.buildPath sampleWorldLine PathFinder.new ⟨10, 0, 0⟩ ⟨10, 0, 0⟩ 0).mPath.length
      ≠ 1 := by
  refine ⟨rfl, fun _ => rfl, by decide!, by decide!, by decide!⟩

/-- C4, amended: on a cell with a non-empty pathgrid, with reflexive node reachability and a
converter whose `toLocalVec3` undoes `toWorld`, when start and end both equal the world
position of the graph node closest to start, `buildPath` yields the non-empty path of
exactly two waypoints: that node's world position followed by the end point. -/
theorem buildPath_at_start_node (w : MWBase.World) (self : PathFinder)
    (startPoint endPoint : Point) (cell : Nat) (grid : ESM.Pathgrid)
    (hv : self.cacheValid w) (hg : w.searchPathgrid cell = some grid)
    (hne : grid.mPoints ≠ [])
    (hrefl : ∀ i, w.isPointConnected cell i i = true)
    (hconv : ∀ p, (w.converter cell).toLocalVec3 ((w.converter cell).toWorld p) =
      PathFinder.MakeOsgVec3 p)
    (hstart : startPoint = (w.converter cell).toWorld
      (grid.mPoints.getD (getClosestPoint grid ((w.converter cell).toLocalVec3 startPoint))
        ⟨0, 0, 0⟩))
    (hend : endPoint = startPoint) :
    (PathFinder.buildPath w self startPoint endPoint cell).mPath = [startPoint, endPoint] ∧
    (PathFinder.buildPath w self startPoint endPoint cell).mPath ≠ [] ∧
    (PathFinder.buildPath w self startPoint endPoint cell).mPath.length = 2 := by
  have key : (PathFinder.buildPath w self startPoint endPoint cell).mPath =
      [startPoint, endPoint] := by
    subst hend
    obtain ⟨pre, q, post, hsplit, hidx, hpre, -⟩ :=
      getClosestPoint_split grid ((w.converter cell).toLocalVec3 endPoint) hne
    have hq : grid.mPoints.getD pre.length ⟨0, 0, 0⟩ = q := by
      rw [hsplit, List.getD_eq_getElem?_getD, List.getElem?_append_right (le_refl _)]
      simp
    rw [hidx, hq] at hstart
    have hpos : (w.converter cell).toLocalVec3 endPoint = PathFinder.MakeOsgVec3 q := by
      rw [hstart]; exact hconv q
    have hzero : distanceSquared q ((w.converter cell).toLocalVec3 endPoint) = 0 := by
      rw [hpos]; exact distanceSquared_self q
    have hpre2 : ∀ p ∈ pre, 0 < distanceSquared p ((w.converter cell).toLocalVec3 endPoint) := by
      intro p hp
      have := hpre p hp
      rwa [hzero] at this
    have hreach := getClosestReachablePoint_at_zero grid (w.isPointConnected cell)
      ((w.converter cell).toLocalVec3 endPoint) pre.length pre q post hsplit hpre2 hzero
      (hrefl pre.length)
    rw [PathFinder.buildPath_eq w self endPoint endPoint cell hv,
      PathFinder.buildPath_fresh_mPath w endPoint endPoint cell grid hg hne]
    simp only [hidx, hreach, hq, hzero, length2_fsub_self, lt_self_iff_false, or_self,
      if_false, if_true, List.singleton_append]
    rw [← hstart]
  exact ⟨key, by rw [key]; simp, by rw [key]; simp⟩

theorem buildPath_at_start_node_witness :
    PathFinder.new.cacheValid sampleWorldLine ∧
    (PathFinder.buildPath sampleWorldLine PathFinder.new ⟨10, 0, 0⟩ ⟨10, 0, 0⟩ 0).mPath
      = [⟨10, 0, 0⟩, ⟨10, 0, 0⟩] :=
  ⟨PathFinder.cacheValid_new _,
    (buildPath_at_start_node sampleWorldLine PathFinder.new ⟨10, 0, 0⟩ ⟨10, 0, 0⟩ 0
      ⟨[⟨0, 0, 0⟩, ⟨10, 0, 0⟩]⟩ (PathFinder.cacheValid_new _) rfl (by simp)
      (fun _ => rfl) (fun _ => rfl) (by decide!) rfl).1⟩

/-! ## Claims about `buildSyncedPath` -/

/-- C5: `buildSyncedPath` leaves the path equal to the result of `buildPath` with its first
waypoint dropped when the old path had at least 2 waypoints, the newly built path has at
least 2 waypoints and the second waypoint of the new path equals, in x, y and z, the first
waypoint of the old path; in every other case the path is the result of `buildPath`
unchanged. -/
theorem buildSyncedPath_path (w : MWBase.World) (self : PathFinder)
    (startPoint endPoint : Point) (cell : Nat) :
    let old := self.mPath
    let rebuilt := (PathFinder.buildPath w self startPoint endPoint cell).mPath
    (PathFinder.buildSyncedPath w self startPoint endPoint cell).mPath =
      if 2 ≤ old.length ∧ 2 ≤ rebuilt.length ∧
          (rebuilt.getD 1 ⟨0, 0, 0⟩).mX = (old.getD 0 ⟨0, 0, 0⟩).mX ∧
          (rebuilt.getD 1 ⟨0, 0, 0⟩).mY = (old.getD 0 ⟨0, 0, 0⟩).mY ∧
          (rebuilt.getD 1 ⟨0, 0, 0⟩).mZ = (old.getD 0 ⟨0, 0, 0⟩).mZ
      then rebuilt.tail else rebuilt := by
  intro old rebuilt
  simp only [old, rebuilt]
  unfold PathFinder.buildSyncedPath
  cases ho : self.mPath with
  | nil => simp
  | cons oldStart orest =>
    cases orest with
    | nil => simp
    | cons o2 orest =>
      have hlen : ¬ (oldStart :: o2 :: orest).length < 2 := by
        simp only [List.length_cons]; omega
      have hlen2 : 2 ≤ (oldStart :: o2 :: orest).length := by
        simp only [List.length_cons]; omega
      rw [if_neg hlen]
      simp only [PathFinder.getPath, ho, hlen2, true_and, List.getD_cons_zero]
      cases hr : (PathFinder.buildPath w self startPoint endPoint cell).mPath with
      | nil => simp [hr]
      | cons a l =>
        cases l with
        | nil => simp [hr]
        | cons b l2 =>
          have hrl : 2 ≤ (a :: b :: l2).length := by
            simp only [List.length_cons]; omega
          simp only [hrl, ge_iff_le, if_true, true_and, List.getD_cons_succ,
            List.getD_cons_zero, List.tail_cons]
          by_cases hc : b.mX = oldStart.mX ∧ b.mY = oldStart.mY ∧ b.mZ = oldStart.mZ
          · simp only [hc, and_self, if_true]
          · simp only [hc, if_false, hr]

/-- C6, as stated, fails: with the old path [A, B, C] and a rebuild that produces [A, B, D]
(A = (0,0,0), B = (10,0,0), C = (20,0,0), D = (11,0,0)) `buildSyncedPath` leaves [A, B, D],
not [B, D]. -/
theorem buildSyncedPath_same_prefix_counterexample :
    (PathFinder.buildPath sampleWorldLine
        { PathFinder.new with mPath := [⟨0, 0, 0⟩, ⟨10, 0, 0⟩, ⟨20, 0, 0⟩] }
        ⟨0, 0, 0⟩ ⟨11, 0, 0⟩ 0).mPath = [⟨0, 0, 0⟩, ⟨10, 0, 0⟩, ⟨11, 0, 0⟩] ∧
    (PathFinder.buildSyncedPath sampleWorldLine
        { PathFinder.new with mPath := [⟨0, 0, 0⟩, ⟨10, 0, 0⟩, ⟨20, 0, 0⟩] }
        ⟨0, 0, 0⟩ ⟨11, 0, 0⟩ 0).mPath = [⟨0, 0, 0⟩, ⟨10, 0, 0⟩, ⟨11, 0, 0⟩] ∧
    (PathFinder.buildSyncedPath sampleWorldLine
        { PathFinder.new with mPath := [⟨0, 0, 0⟩, ⟨10, 0, 0⟩, ⟨20, 0, 0⟩] }
        ⟨0, 0, 0⟩ ⟨11, 0, 0⟩ 0).mPath ≠ [⟨10, 0, 0⟩, ⟨11, 0, 0⟩] := by
  refine ⟨by decide!, by decide!, by decide!⟩

/-- C6, amended: when the rebuild (`buildPath`) produces [A, B, D], `buildSyncedPath` leaves
[B, D] for every old path of at least two waypoints whose first waypoint is B (such as
[B, C]: the leading A that would send the agent back is dropped); for the old path
[A, B, C] it leaves [B, D] only if A and B are the same point and leaves [A, B, D]
otherwise. -/
theorem buildSyncedPath_drops_leading (w : MWBase.World) (self : PathFinder)
    (startPoint endPoint : Point) (cell : Nat) (A B D : Point)
    (hnew : (PathFinder.buildPath w self startPoint endPoint cell).mPath = [A, B, D]) :
    (∀ C rest, self.mPath = B :: C :: rest →
      (PathFinder.buildSyncedPath w self startPoint endPoint cell).mPath = [B, D]) ∧
    (∀ C, self.mPath = [A, B, C] →
      (PathFinder.buildSyncedPath w self startPoint endPoint cell).mPath =
        if B = A then [B, D] else [A, B, D]) := by
  constructor
  · intro C rest hold
    have hlen : ¬ (rest.length + 1 + 1 < 2) := by omega
    simp [PathFinder.buildSyncedPath, PathFinder.getPath, hold, hnew, hlen]
  · intro C hold
    by_cases hBA : B = A
    · subst hBA
      simp [PathFinder.buildSyncedPath, PathFinder.getPath, hold, hnew]
    · have hne : ¬ (B.mX = A.mX ∧ B.mY = A.mY ∧ B.mZ = A.mZ) := by
        rintro ⟨h1, h2, h3⟩
        apply hBA
        cases A; cases B
        simp_all
      simp [PathFinder.buildSyncedPath, PathFinder.getPath, hold, hnew, hBA, hne]

theorem buildSyncedPath_drops_leading_witness :
    (PathFinder.buildPath sampleWorldLine
        { PathFinder.new with mPath := [⟨10, 0, 0⟩, ⟨20, 0, 0⟩] }
        ⟨0, 0, 0⟩ ⟨11, 0, 0⟩ 0).mPath = [⟨0, 0, 0⟩, ⟨10, 0, 0⟩, ⟨11, 0, 0⟩] ∧
    (PathFinder.buildSyncedPath sampleWorldLine
        { PathFinder.new with mPath := [⟨10, 0, 0⟩, ⟨20, 0, 0⟩] }
        ⟨0, 0, 0⟩ ⟨11, 0, 0⟩ 0).mPath = [⟨10, 0, 0⟩, ⟨11, 0, 0⟩] ∧
    (PathFinder.buildSyncedPath sampleWorldLine
        { PathFinder.new with mPath := [⟨0, 0, 0⟩, ⟨10, 0, 0⟩, ⟨20, 0, 0⟩] }
        ⟨0, 0, 0⟩ ⟨11, 0, 0⟩ 0).mPath = [⟨0, 0, 0⟩, ⟨10, 0, 0⟩, ⟨11, 0, 0⟩] :=
  ⟨by decide!,
    (buildSyncedPath_drops_leading sampleWorldLine
      { PathFinder.new with mPath := [⟨10, 0, 0⟩, ⟨20, 0, 0⟩] }
      ⟨0, 0, 0⟩ ⟨11, 0, 0⟩ 0 ⟨0, 0, 0⟩ ⟨10, 0, 0⟩ ⟨11, 0, 0⟩ (by decide!)).1
      ⟨20, 0, 0⟩ [] rfl,
    ((buildSyncedPath_drops_leading sampleWorldLine
      { PathFinder.new with mPath := [⟨0, 0, 0⟩, ⟨10, 0, 0⟩, ⟨20, 0, 0⟩] }
      ⟨0, 0, 0⟩ ⟨11, 0, 0⟩ 0 ⟨0, 0, 0⟩ ⟨10, 0, 0⟩ ⟨11, 0, 0⟩ (by decide!)).2
      ⟨20, 0, 0⟩ rfl).trans (by decide)⟩

/-! ## Claims about `checkPathCompleted` -/

/-- C7, as stated, fails: with the path [(0,0,0)], the position x = 16777215/524288
(31.9999981 as a float), y = 1476395/134217728 (0.011 as a float) and the tolerance 32, the
squared planar distance from the position to the front waypoint is less than the tolerance
squared (about 1023.9999989 against 1024), yet the sum computed in single precision rounds
to 1024, the comparison fails and `checkPathCompleted` removes nothing. -/
theorem checkPathCompleted_path_counterexample :
    roundToFloat (16777215 / 524288) = 16777215 / 524288 ∧
    roundToFloat (1476395 / 134217728) = 1476395 / 134217728 ∧
    ((16777215 / 524288 : ℚ) - 0) * (16777215 / 524288 - 0) +
        ((1476395 / 134217728 : ℚ) - 0) * (1476395 / 134217728 - 0) < 32 * 32 ∧
    sqrDistanceIgnoreZ ⟨0, 0, 0⟩ (16777215 / 524288) (1476395 / 134217728) = 1024 ∧
    (PathFinder.checkPathCompleted { PathFinder.new with mPath := [⟨0, 0, 0⟩] }
        (16777215 / 524288) (1476395 / 134217728) 32).1 = false ∧
    (PathFinder.checkPathCompleted { PathFinder.new with mPath := [⟨0, 0, 0⟩] }
        (16777215 / 524288) (1476395 / 134217728) 32).2.mPath = [⟨0, 0, 0⟩] := by
  refine ⟨by decide!, by decide!, by norm_num, by decide!, by decide!, by decide!⟩

/-- C7, amended: `checkPathCompleted` never grows the path and changes it in at most one way:
when the path is non-empty and the squared planar (x, y) distance from the position to the
front waypoint, as computed in single precision (the two differences, the two products and
the sum each rounded to the nearest float), is less than the rounded product
tolerance * tolerance, exactly the front waypoint is removed (the path becomes its tail);
otherwise the path is unchanged.  The cached grid and cell are untouched, and the z
coordinate of the front waypoint plays no part. -/
theorem checkPathCompleted_path (self : PathFinder) (x y tolerance : ℚ) :
    (PathFinder.checkPathCompleted self x y tolerance).2.mPath =
      (match self.mPath with
       | [] => []
       | front :: rest =>
         if roundToFloat
             (roundToFloat
                (roundToFloat (x - roundToFloat (front.mX : ℚ)) *
                  roundToFloat (x - roundToFloat (front.mX : ℚ))) +
              roundToFloat
                (roundToFloat (y - roundToFloat (front.mY : ℚ)) *
                  roundToFloat (y - roundToFloat (front.mY : ℚ)))) <
             roundToFloat (tolerance * tolerance)
         then rest else front :: rest) ∧
    (PathFinder.checkPathCompleted self x y tolerance).2.mPath.length ≤ self.mPath.length ∧
    (PathFinder.checkPathCompleted self x y tolerance).2.mPathgrid = self.mPathgrid ∧
    (PathFinder.checkPathCompleted self x y tolerance).2.mCell = self.mCell ∧
    (∀ (front : Point) (rest : List Point) (z : Int),
      (PathFinder.checkPathCompleted
          { self with mPath := { front with mZ := z } :: rest } x y tolerance).1 =
        (PathFinder.checkPathCompleted
          { self with mPath := front :: rest } x y tolerance).1 ∧
      (PathFinder.checkPathCompleted
          { self with mPath := { front with mZ := z } :: rest } x y tolerance).2.mPath.length =
        (PathFinder.checkPathCompleted
          { self with mPath := front :: rest } x y tolerance).2.mPath.length) := by
  obtain ⟨path, grid, cell⟩ := self
  refine ⟨?_, ?_, ?_, ?_, ?_⟩
  · unfold PathFinder.checkPathCompleted
    cases path with
    | nil => simp
    | cons front rest =>
      simp only [sqrDistanceIgnoreZ]
      split_ifs <;> simp
  · unfold PathFinder.checkPathCompleted
    cases path with
    | nil => simp
    | cons front rest =>
      simp only
      split_ifs <;> simp
  · unfold PathFinder.checkPathCompleted
    cases path with
    | nil => simp
    | cons front rest =>
      simp only
      split_ifs <;> simp
  · unfold PathFinder.checkPathCompleted
    cases path with
    | nil => simp
    | cons front rest =>
      simp only
      split_ifs <;> simp
  · intro front rest z
    unfold PathFinder.checkPathCompleted
    simp only [sqrDistanceIgnoreZ]
    constructor <;> split_ifs <;> simp

/-- C8: `checkPathCompleted` returns true exactly when the path is empty after the call; on
an already-empty path every call returns true and leaves the state as it is, so any
sequence of further calls ends in the same state with an empty path. -/
theorem checkPathCompleted_flag (self : PathFinder) (x y tolerance : ℚ) :
    ((PathFinder.checkPathCompleted self x y tolerance).1 = true ↔
      (PathFinder.checkPathCompleted self x y tolerance).2.mPath = []) ∧
    PathFinder.checkPathCompleted { self with mPath := [] } x y tolerance =
      (true, { self with mPath := [] }) ∧
    (∀ calls : List (ℚ × ℚ × ℚ),
      calls.foldl (fun s c => (PathFinder.checkPathCompleted s c.1 c.2.1 c.2.2).2)
        { self with mPath := [] } = { self with mPath := [] }) := by
  obtain ⟨path, grid, cell⟩ := self
  refine ⟨?_, rfl, ?_⟩
  · unfold PathFinder.checkPathCompleted
    cases path with
    | nil => simp
    | cons front rest =>
      simp only
      split_ifs with h1 h2
      · simpa using h2
      · simpa using h2
      · simp
  · intro calls
    induction calls with
    | nil => rfl
    | cons c calls ih =>
      simp only [List.foldl_cons]
      exact ih

/-- C9 at the failing input: with the path [(1000,0,0), (0,0,0)] and the position (0, 0),
which lies on the last point of the path and so within the tolerance 32 of it,
`checkPathCompleted` returns false and leaves the path as it was. -/
theorem checkPathCompleted_near_last_point_false :
    sqrDistanceIgnoreZ ⟨0, 0, 0⟩ 0 0 = 0 ∧
    PathFinder.checkPathCompleted
        { PathFinder.new with mPath := [⟨1000, 0, 0⟩, ⟨0, 0, 0⟩] } 0 0 PathFinder.PathTolerance =
      (false, { PathFinder.new with mPath := [⟨1000, 0, 0⟩, ⟨0, 0, 0⟩] }) := by
  constructor
  · decide!
  · have hfar : ¬ sqrDistanceIgnoreZ ⟨1000, 0, 0⟩ 0 0 <
        roundToFloat (PathFinder.PathTolerance * PathFinder.PathTolerance) := by decide!
    unfold PathFinder.checkPathCompleted
    simp only [PathFinder.new]
    rw [if_neg hfar]

/-! ## Claims about `checkWayIsClear` -/

/-- C19: for all pathgrid points a and b, `distance a b` equals `distance b a`, and
`distance a a` equals 0, for every square-root function that maps 0 to 0. -/
theorem distance_symm_and_self (sqrtf : ℚ → ℚ) (a b : Point) (hzero : sqrtf 0 = 0) :
    distance sqrtf a b = distance sqrtf b a ∧ distance sqrtf a a = 0 := by
  constructor
  · unfold distance
    simp only
    congr 1
    push_cast
    ring
  · unfold distance
    simp [hzero]

theorem distance_symm_and_self_witness :
    sampleSqrt 0 = 0 ∧
    distance sampleSqrt ⟨0, 0, 0⟩ ⟨3, 4, 0⟩ = distance sampleSqrt ⟨3, 4, 0⟩ ⟨0, 0, 0⟩ ∧
    distance sampleSqrt ⟨0, 0, 0⟩ ⟨3, 4, 0⟩ = 5 ∧
    distance sampleSqrt ⟨3, 4, 0⟩ ⟨3, 4, 0⟩ = 0 :=
  ⟨by decide!,
    (distance_symm_and_self sampleSqrt ⟨0, 0, 0⟩ ⟨3, 4, 0⟩ (by decide!)).1,
    by decide!,
    (distance_symm_and_self sampleSqrt ⟨3, 4, 0⟩ ⟨3, 4, 0⟩ (by decide!)).2⟩

/-- C20, as stated, fails: on the grid (4097,0,0), (4096,64,64) and the position (0,0,0),
node 1 is strictly closer to the position than node 0 (squared distances 16785408 and
16785409), yet both squared distances computed in single precision are 16785408 and
`getClosestPoint` returns node 0. -/
theorem getClosestPoint_closest_counterexample :
    (⟨[⟨4097, 0, 0⟩, ⟨4096, 64, 64⟩]⟩ : ESM.Pathgrid).mPoints ≠ [] ∧
    ((4096 : ℚ) - 0) * (4096 - 0) + (64 - 0) * (64 - 0) + (64 - 0) * (64 - 0) <
      ((4097 : ℚ) - 0) * (4097 - 0) + (0 - 0) * (0 - 0) + (0 - 0) * (0 - 0) ∧
    distanceSquared ⟨4097, 0, 0⟩ ⟨0, 0, 0⟩ = 16785408 ∧
    distanceSquared ⟨4096, 64, 64⟩ ⟨0, 0, 0⟩ = 16785408 ∧
    getClosestPoint ⟨[⟨4097, 0, 0⟩, ⟨4096, 64, 64⟩]⟩ ⟨0, 0, 0⟩ = 0 := by
  refine ⟨by simp, by norm_num, by decide!, by decide!, by decide!⟩

/-- C20, amended: on a non-empty pathgrid `getClosestPoint` returns an in-range node index
whose node is at minimal squared distance from the position as computed in single precision
(no node has a strictly smaller computed squared distance), and among the nodes of equal
computed squared distance it returns the lowest index. -/
theorem getClosestPoint_closest (grid : ESM.Pathgrid) (pos : osg.Vec3f)
    (hne : grid.mPoints ≠ []) :
    getClosestPoint grid pos < grid.mPoints.length ∧
    (∀ j, j < grid.mPoints.length →
      distanceSquared (grid.mPoints.getD (getClosestPoint grid pos) ⟨0, 0, 0⟩) pos ≤
        distanceSquared (grid.mPoints.getD j ⟨0, 0, 0⟩) pos) ∧
    (∀ j, j < grid.mPoints.length →
      distanceSquared (grid.mPoints.getD j ⟨0, 0, 0⟩) pos =
        distanceSquared (grid.mPoints.getD (getClosestPoint grid pos) ⟨0, 0, 0⟩) pos →
      getClosestPoint grid pos ≤ j) := by
  obtain ⟨pre, q, post, hsplit, hidx, hpre, hpost⟩ := getClosestPoint_split grid pos hne
  have hq : grid.mPoints.getD pre.length ⟨0, 0, 0⟩ = q := by
    rw [hsplit, List.getD_eq_getElem?_getD, List.getElem?_append_right (le_refl _)]
    simp
  have hbefore : ∀ j, j < pre.length →
      distanceSquared q pos < distanceSquared (grid.mPoints.getD j ⟨0, 0, 0⟩) pos := by
    intro j hj
    have hmem : grid.mPoints.getD j ⟨0, 0, 0⟩ ∈ pre := by
      rw [hsplit, List.getD_eq_getElem?_getD, List.getElem?_append_left hj,
        List.getElem?_eq_getElem hj]
      simp
    exact hpre _ hmem
  have hafter : ∀ j, pre.length < j → j < grid.mPoints.length →
      distanceSquared q pos ≤ distanceSquared (grid.mPoints.getD j ⟨0, 0, 0⟩) pos := by
    intro j hj hlen
    have hlen2 : j - pre.length - 1 < post.length := by
      rw [hsplit] at hlen
      simp only [List.length_append, List.length_cons] at hlen
      omega
    have hmem : grid.mPoints.getD j ⟨0, 0, 0⟩ ∈ post := by
      rw [hsplit, List.getD_eq_getElem?_getD, List.getElem?_append_right (le_of_lt hj)]
      have hj2 : j - pre.length = (j - pre.length - 1) + 1 := by omega
      rw [hj2, List.getElem?_cons_succ, List.getElem?_eq_getElem hlen2]
      simp
    exact hpost _ hmem
  rw [hidx, hq]
  refine ⟨?_, ?_, ?_⟩
  · rw [hsplit]
    simp
  · intro j hj
    rcases Nat.lt_trichotomy j pre.length with h | h | h
    · exact le_of_lt (hbefore j h)
    · rw [h, hq]
    · exact hafter j h hj
  · intro j _ heq
    by_contra hlt
    have := hbefore j (not_le.mp hlt)
    rw [heq] at this
    exact lt_irrefl _ this

theorem getClosestPoint_closest_witness :
    (⟨[⟨0, 0, 0⟩, ⟨10, 0, 0⟩]⟩ : ESM.Pathgrid).mPoints ≠ [] ∧
    getClosestPoint ⟨[⟨0, 0, 0⟩, ⟨10, 0, 0⟩]⟩ ⟨5, 0, 0⟩ = 0 ∧
    getClosestPoint ⟨[⟨0, 0, 0⟩, ⟨10, 0, 0⟩]⟩ ⟨5, 0, 0⟩ <
      (⟨[⟨0, 0, 0⟩, ⟨10, 0, 0⟩]⟩ : ESM.Pathgrid).mPoints.length :=
  ⟨by simp, by decide!,
    (getClosestPoint_closest ⟨[⟨0, 0, 0⟩, ⟨10, 0, 0⟩]⟩ ⟨5, 0, 0⟩ (by simp)).1⟩

/-! ## Claims about `pathTo`: arrival and the inactive-cell exit -/

/-- C12, as stated, fails: the actor at (1/2, 0, 0) is at distance 79/2 from the destination
(40,0,0), within the tolerance 159/4, and is not near an inactive cell, yet `pathTo` returns
false: it measures from the position truncated to the integer point (0,0,0), which is 40
away, and the path [(40,0,0)] built by the reaction step is not consumed at (1/2, 0). -/
theorem pathTo_arrival_counterexample :
    AiPackage.isNearInactiveCell sampleWorldNoGrid (sampleExternals false none)
      (sampleActor (1 / 2) 0 0).position = false ∧
    distanceXYZ (sampleExternals false none).sqrt ⟨40, 0, 0⟩ (1 / 2) 0 0 = 79 / 2 ∧
    (79 / 2 : ℚ) ≤ 159 / 4 ∧
    PathFinder.MakePathgridPoint (sampleActor (1 / 2) 0 0).position = ⟨0, 0, 0⟩ ∧
    distance (sampleExternals false none).sqrt ⟨0, 0, 0⟩ ⟨40, 0, 0⟩ = 40 ∧
    (AiPackage.pathTo sampleWorldNoGrid (sampleExternals false none)
      (AiPackage.new (sampleExternals false none)) (sampleActor (1 / 2) 0 0) ⟨40, 0, 0⟩
      (1 / 10) (159 / 4)).self.mPathFinder.mPath = [⟨40, 0, 0⟩] ∧
    (AiPackage.pathTo sampleWorldNoGrid (sampleExternals false none)
      (AiPackage.new (sampleExternals false none)) (sampleActor (1 / 2) 0 0) ⟨40, 0, 0⟩
      (1 / 10) (159 / 4)).ret = false := by
  refine ⟨rfl, by decide!, by norm_num, by decide!, by decide!, by decide!, by decide!⟩

/-- C12, amended: when the actor is not near an inactive cell, `pathTo` returns true exactly
when the distance from `start`, the actor's position truncated to integer coordinates, to
`dest` is at most `destTolerance` or `checkPathCompleted` at the actor's (x, y) reports the
path fully consumed after the reaction step; whenever it returns true all three movement
axes are zero; in particular, when `start` is within `destTolerance` of `dest` it returns
true whatever the path holds. -/
theorem pathTo_arrival (w : MWBase.World) (e : Externals) (self : AiPackage)
    (actor : MWWorld.Ptr) (dest : Point) (duration destTolerance : ℚ)
    (hactive : AiPackage.isNearInactiveCell w e actor.position = false) :
    let start := PathFinder.MakePathgridPoint actor.position
    let afterReaction := (AiPackage.pathTo.reactionStep w e
      { self with mTimer := self.mTimer + duration } actor dest destTolerance).self
    let result := AiPackage.pathTo w e self actor dest duration destTolerance
    (result.ret = true ↔
      (distance e.sqrt start dest ≤ destTolerance ∨
        (afterReaction.mPathFinder.checkPathCompleted actor.position.pos.x
          actor.position.pos.y PathFinder.PathTolerance).1 = true)) ∧
    (result.ret = true →
      result.movement.mPosition0 = 0 ∧ result.movement.mPosition1 = 0 ∧
        result.movement.mPosition2 = 0) ∧
    (distance e.sqrt start dest ≤ destTolerance → result.ret = true) := by
  intro start afterReaction result
  have hret : result.ret = true ↔
      (distance e.sqrt start dest ≤ destTolerance ∨
        (afterReaction.mPathFinder.checkPathCompleted actor.position.pos.x
          actor.position.pos.y PathFinder.PathTolerance).1 = true) := by
    simp only [result, afterReaction, start, AiPackage.pathTo, hactive, Bool.false_eq_true,
      if_false]
    by_cases hd : distance e.sqrt (PathFinder.MakePathgridPoint actor.position) dest ≤
        destTolerance
    · simp [hd]
    · simp only [hd, decide_False, Bool.false_eq_true, if_false, false_or]
      split_ifs with hc
      · simp [hc]
      · simp [hc]
  refine ⟨hret, ?_, fun hd => hret.mpr (Or.inl hd)⟩
  intro htrue
  simp only [result, AiPackage.pathTo, hactive, Bool.false_eq_true, if_false] at htrue ⊢
  generalize (if decide (distance e.sqrt (PathFinder.MakePathgridPoint actor.position) dest ≤
      destTolerance) = true then
        ((true, (AiPackage.pathTo.reactionStep w e
          { self with mTimer := self.mTimer + duration } actor dest
            destTolerance).self.mPathFinder) : Bool × PathFinder)
      else (AiPackage.pathTo.reactionStep w e
          { self with mTimer := self.mTimer + duration } actor dest
            destTolerance).self.mPathFinder.checkPathCompleted
        actor.position.pos.x actor.position.pos.y PathFinder.PathTolerance) = completed
    at htrue ⊢
  cases hc : completed.1
  · simp [hc] at htrue
  · simp

theorem pathTo_arrival_witness :
    AiPackage.isNearInactiveCell sampleWorldNoGrid (sampleExternals false none)
      (sampleActor 10 0 0).position = false ∧
    (AiPackage.pathTo sampleWorldNoGrid (sampleExternals false none)
      (AiPackage.new (sampleExternals false none)) (sampleActor 10 0 0) ⟨40, 0, 0⟩
      (1 / 10) 32).ret = true ∧
    (AiPackage.pathTo sampleWorldNoGrid (sampleExternals false none)
      (AiPackage.new (sampleExternals false none)) (sampleActor 10 0 0) ⟨40, 0, 0⟩
      (1 / 10) 32).movement.mPosition1 = 0 :=
  ⟨rfl,
    (pathTo_arrival sampleWorldNoGrid (sampleExternals false none)
      (AiPackage.new (sampleExternals false none)) (sampleActor 10 0 0) ⟨40, 0, 0⟩
      (1 / 10) 32 rfl).2.2 (by decide!),
    ((pathTo_arrival sampleWorldNoGrid (sampleExternals false none)
      (AiPackage.new (sampleExternals false none)) (sampleActor 10 0 0) ⟨40, 0, 0⟩
      (1 / 10) 32 rfl).2.1 (by decide!)).2.1⟩

/-- C17: when the actor is near an inactive cell, `pathTo` returns false, sets the forward
movement axis to zero and makes no call; the path, the previous destination, the last
observed position, the shortcut-prohibited flag and the failure position are unchanged: the
only state change is the reaction timer advanced by the tick duration. -/
theorem pathTo_near_inactive_cell (w : MWBase.World) (e : Externals) (self : AiPackage)
    (actor : MWWorld.Ptr) (dest : Point) (duration destTolerance : ℚ)
    (hnear : AiPackage.isNearInactiveCell w e actor.position = true) :
    let result := AiPackage.pathTo w e self actor dest duration destTolerance
    result.ret = false ∧
    result.movement = { actor.movement with mPosition1 := 0 } ∧
    result.calls = [] ∧
    result.self = { self with mTimer := self.mTimer + duration } ∧
    result.self.mPathFinder = self.mPathFinder ∧
    result.self.mPrevDest = self.mPrevDest ∧
    result.self.mLastActorPos = self.mLastActorPos ∧
    result.self.mShortcutProhibited = self.mShortcutProhibited ∧
    result.self.mShortcutFailPos = self.mShortcutFailPos ∧
    result.self.mTimer = self.mTimer + duration := by
  intro result
  simp [result, AiPackage.pathTo, hnear]

theorem pathTo_near_inactive_cell_witness :
    AiPackage.isNearInactiveCell sampleWorldExterior (sampleExternals false none)
      (sampleActor (-8000) 0 0).position = true ∧
    (AiPackage.pathTo sampleWorldExterior (sampleExternals false none)
      (AiPackage.new (sampleExternals false none)) (sampleActor (-8000) 0 0) ⟨40, 0, 0⟩
      (1 / 10) 32).ret = false :=
  ⟨by decide!,
    (pathTo_near_inactive_cell sampleWorldExterior (sampleExternals false none)
      (AiPackage.new (sampleExternals false none)) (sampleActor (-8000) 0 0) ⟨40, 0, 0⟩
      (1 / 10) 32 (by decide!)).1⟩

/-! ## The controller's helpers -/

theorem AiPackage.doesPathNeedRecalc_fst (e : Externals) (self : AiPackage) (dest : Point)
    (cell : Nat) :
    (AiPackage.doesPathNeedRecalc e self dest cell).1 =
      decide (distance e.sqrt self.mPrevDest dest > 10) := by
  unfold AiPackage.doesPathNeedRecalc
  by_cases h : distance e.sqrt self.mPrevDest dest > 10 <;> simp [h]

theorem AiPackage.doesPathNeedRecalc_snd (e : Externals) (self : AiPackage) (dest : Point)
    (cell : Nat) :
    (AiPackage.doesPathNeedRecalc e self dest cell).2 =
      if distance e.sqrt self.mPrevDest dest > 10 then { self with mPrevDest := dest }
      else self := by
  unfold AiPackage.doesPathNeedRecalc
  by_cases h : distance e.sqrt self.mPrevDest dest > 10 <;> simp [h]

/-- The answer of `checkWayIsClearForActor` does not depend on the controller state. -/
theorem AiPackage.checkWayIsClearForActor_fst (w : MWBase.World) (e : Externals)
    (s1 s2 : AiPackage) (startPoint endPoint : Point) (actor : MWWorld.Ptr) :
    (AiPackage.checkWayIsClearForActor w e s1 startPoint endPoint actor).1 =
      (AiPackage.checkWayIsClearForActor w e s2 startPoint endPoint actor).1 := by
  unfold AiPackage.checkWayIsClearForActor
  simp only
  split_ifs <;> rfl

/-- `checkWayIsClearForActor` changes nothing but the shortcut-prohibited flag and the
failure position. -/
theorem AiPackage.checkWayIsClearForActor_frame (w : MWBase.World) (e : Externals)
    (self : AiPackage) (startPoint endPoint : Point) (actor : MWWorld.Ptr) :
    (AiPackage.checkWayIsClearForActor w e self startPoint endPoint actor).2.mPathFinder =
      self.mPathFinder ∧
    (AiPackage.checkWayIsClearForActor w e self startPoint endPoint actor).2.mTimer =
      self.mTimer ∧
    (AiPackage.checkWayIsClearForActor w e self startPoint endPoint actor).2.mPrevDest =
      self.mPrevDest ∧
    (AiPackage.checkWayIsClearForActor w e self startPoint endPoint actor).2.mLastActorPos =
      self.mLastActorPos := by
  unfold AiPackage.checkWayIsClearForActor
  simp only
  split_ifs <;> simp

/-! ## Claims about the rebuild of a stuck agent -/

/-- C13, as stated, fails: on a reaction tick (timer 1 above the interval 1/4, destination
(100,0,0) at distance 100, beyond the tolerance 32) the agent is judged stuck, yet the
destination has not moved and the way is clear, so the path [(50,0,0)] is kept; the full
graph builder would have produced [(100,0,0)]. -/
theorem pathTo_stuck_rebuild_counterexample :
    AiPackage.isNearInactiveCell (sampleWorldSurface 0) (sampleExternals false none)
      (sampleActor 0 0 0).position = false ∧
    AiPackage.pathTo.isStuck (sampleExternals false none)
      { AiPackage.new (sampleExternals false none) with
        mTimer := 1, mPrevDest := ⟨100, 0, 0⟩,
        mPathFinder := { PathFinder.new with mPath := [⟨50, 0, 0⟩] } }
      (sampleActor 0 0 0) ⟨0, 0, 0⟩ ⟨100, 0, 0⟩ = true ∧
    (AiPackage.pathTo.reactionStep (sampleWorldSurface 0) (sampleExternals false none)
      { AiPackage.new (sampleExternals false none) with
        mTimer := 1, mPrevDest := ⟨100, 0, 0⟩,
        mPathFinder := { PathFinder.new with mPath := [⟨50, 0, 0⟩] } }
      (sampleActor 0 0 0) ⟨100, 0, 0⟩ 32).self.mPathFinder.mPath = [⟨50, 0, 0⟩] ∧
    (AiPackage.pathTo (sampleWorldSurface 0) (sampleExternals false none)
      { AiPackage.new (sampleExternals false none) with
        mTimer := 1 / 2, mPrevDest := ⟨100, 0, 0⟩,
        mPathFinder := { PathFinder.new with mPath := [⟨50, 0, 0⟩] } }
      (sampleActor 0 0 0) ⟨100, 0, 0⟩ (1 / 2) 32).self.mPathFinder.mPath = [⟨50, 0, 0⟩] ∧
    (PathFinder.buildSyncedPath (sampleWorldSurface 0)
      { PathFinder.new with mPath := [⟨50, 0, 0⟩] } ⟨0, 0, 0⟩ ⟨100, 0, 0⟩ 0).mPath
      = [⟨100, 0, 0⟩] := by
  refine ⟨rfl, by decide!, by decide!, by decide!, by decide!⟩

/-- C13, amended: on a reaction tick of `pathTo` (destination not reached, reaction timer
above the reaction interval) on which the agent is judged stuck, if a rebuild is triggered
(the destination is more than 10 units from the previous one, or the way is no longer
clear) the path is rebuilt by `buildSyncedPath` for the current start and destination,
without any shortcut attempt, and then goes through the far-destination append; if no
rebuild is triggered the path is kept and only goes through that append. -/
theorem pathTo_stuck_rebuild (w : MWBase.World) (e : Externals) (self : AiPackage)
    (actor : MWWorld.Ptr) (dest : Point) (destTolerance : ℚ)
    (hfar : ¬ distance e.sqrt (PathFinder.MakePathgridPoint actor.position) dest ≤
      destTolerance)
    (htimer : self.mTimer > e.AI_REACTION_TIME)
    (hstuck : AiPackage.pathTo.isStuck e self actor
      (PathFinder.MakePathgridPoint actor.position) dest = true) :
    let start := PathFinder.MakePathgridPoint actor.position
    let isWayClear := (AiPackage.checkWayIsClearForActor w e self start dest actor).1
    let step := AiPackage.pathTo.reactionStep w e self actor dest destTolerance
    ((distance e.sqrt self.mPrevDest dest > 10 ∨ isWayClear = false) →
      step.self.mPathFinder =
        AiPackage.pathTo.appendDest e
          (self.mPathFinder.buildSyncedPath w start dest actor.cell) dest ∧
      step.calls = []) ∧
    (¬ (distance e.sqrt self.mPrevDest dest > 10 ∨ isWayClear = false) →
      step.self.mPathFinder = AiPackage.pathTo.appendDest e self.mPathFinder dest ∧
      step.calls = []) := by
  intro start isWayClear step
  have hstep : step = AiPackage.pathTo.react w e self actor start dest := by
    simp only [step, AiPackage.pathTo.reactionStep, start]
    rw [if_pos]
    exact ⟨by simpa using hfar, htimer⟩
  have hclear : ∀ s : AiPackage,
      (AiPackage.checkWayIsClearForActor w e s start dest actor).1 = isWayClear :=
    fun s => AiPackage.checkWayIsClearForActor_fst w e s self start dest actor
  rw [hstep]
  unfold AiPackage.pathTo.react AiPackage.pathTo.rebuild
  simp only [hstuck, AiPackage.doesPathNeedRecalc_fst, AiPackage.doesPathNeedRecalc_snd,
    true_or, if_true]
  by_cases hrecalc : distance e.sqrt self.mPrevDest dest > 10
  · simp [hrecalc, AiPackage.pathTo.buildSynced]
  · simp only [hrecalc, decide_False, if_false, if_true, false_or, hclear,
      Bool.false_eq_true, or_false]
    cases hc : isWayClear
    · simp [AiPackage.pathTo.buildSynced,
        (AiPackage.checkWayIsClearForActor_frame w e _ start dest actor).1]
    · simp [(AiPackage.checkWayIsClearForActor_frame w e _ start dest actor).1]

theorem pathTo_stuck_rebuild_witness :
    AiPackage.pathTo.isStuck (sampleExternals false none)
      { AiPackage.new (sampleExternals false none) with
        mTimer := 1, mPathFinder := { PathFinder.new with mPath := [⟨50, 0, 0⟩] } }
      (sampleActor 0 0 0) ⟨0, 0, 0⟩ ⟨100, 0, 0⟩ = true ∧
    (AiPackage.pathTo.reactionStep sampleWorldLine (sampleExternals false none)
      { AiPackage.new (sampleExternals false none) with
        mTimer := 1, mPathFinder := { PathFinder.new with mPath := [⟨50, 0, 0⟩] } }
      (sampleActor 0 0 0) ⟨100, 0, 0⟩ 32).self.mPathFinder.mPath
      = [⟨0, 0, 0⟩, ⟨10, 0, 0⟩, ⟨100, 0, 0⟩] :=
  ⟨by decide!,
    (congrArg PathFinder.mPath
      ((pathTo_stuck_rebuild sampleWorldLine (sampleExternals false none)
        { AiPackage.new (sampleExternals false none) with
          mTimer := 1, mPathFinder := { PathFinder.new with mPath := [⟨50, 0, 0⟩] } }
        (sampleActor 0 0 0) ⟨100, 0, 0⟩ 32 (by decide!) (by decide!) (by decide!)).1
        (Or.inl (by decide!))).1).trans (by decide!)⟩

/-! ## Claims about `shortcutPath` and the shortcut prohibition -/

/-- C14: for an actor that cannot move vertically (not swimming and not flying) and a
controller whose shortcut is prohibited with failure position F, `shortcutPath` called from
a start closer than `PATHFIND_SHORTCUT_RETRY_DIST` = 300 to F makes no ray cast, returns
false and leaves the state, the path included, unchanged; called from a start at or beyond
that distance from F it makes the direct ray cast from start to end. -/
theorem shortcutPath_prohibited (w : MWBase.World) (e : Externals) (self : AiPackage)
    (startPoint endPoint : Point) (actor : MWWorld.Ptr) (destInLOS : Option Bool)
    (hground : ((actor.canSwim && w.isSwimming actor) || w.isFlying actor) = false)
    (hflag : self.mShortcutProhibited = true) :
    let fromFail := ((PathFinder.MakeOsgVec3 self.mShortcutFailPos).sub
      (PathFinder.MakeOsgVec3 startPoint)).length e.sqrt
    let result := AiPackage.shortcutPath w e self startPoint endPoint actor destInLOS
    PATHFIND_SHORTCUT_RETRY_DIST = 300 ∧
    (fromFail < 300 →
      result.calls = [] ∧ result.ret = false ∧ result.self = self ∧
      result.self.mPathFinder.mPath = self.mPathFinder.mPath ∧
      result.destInLOS = destInLOS) ∧
    (300 ≤ fromFail →
      result.calls = [WorldCall.castRay (startPoint.mX : ℚ) (startPoint.mY : ℚ)
        (startPoint.mZ : ℚ) (endPoint.mX : ℚ) (endPoint.mY : ℚ) (endPoint.mZ : ℚ)]) := by
  intro fromFail result
  refine ⟨rfl, ?_, ?_⟩
  · intro hnear
    have hcond : ¬ (self.mShortcutProhibited = false ∨
        ((PathFinder.MakeOsgVec3 self.mShortcutFailPos).sub
          (PathFinder.MakeOsgVec3 startPoint)).length e.sqrt ≥
            PATHFIND_SHORTCUT_RETRY_DIST) := by
      rintro (h | h)
      · rw [hflag] at h
        exact Bool.noConfusion h
      · have h2 : (300 : ℚ) ≤ fromFail := by
          simpa [PATHFIND_SHORTCUT_RETRY_DIST, fromFail] using h
        exact absurd hnear (not_lt.mpr h2)
    simp only [result, AiPackage.shortcutPath, hground, hcond, and_false, if_false,
      Bool.false_eq_true, and_self]
  · intro hfar
    have hcond : self.mShortcutProhibited = false ∨
        ((PathFinder.MakeOsgVec3 self.mShortcutFailPos).sub
          (PathFinder.MakeOsgVec3 startPoint)).length e.sqrt ≥
            PATHFIND_SHORTCUT_RETRY_DIST := by
      right
      simpa [PATHFIND_SHORTCUT_RETRY_DIST, fromFail] using hfar
    simp only [result, AiPackage.shortcutPath, hground, hcond, and_self, if_true]
    split_ifs <;> rfl

theorem shortcutPath_prohibited_witness :
    (AiPackage.shortcutPath (sampleWorldRay false 0) (sampleExternals false none)
      { AiPackage.new (sampleExternals false none) with
        mShortcutProhibited := true, mShortcutFailPos := ⟨10, 0, 0⟩ }
      ⟨20, 0, 0⟩ ⟨1000, 0, 0⟩ (sampleActor 20 0 0) (some false)).calls = [] ∧
    (AiPackage.shortcutPath (sampleWorldRay false 0) (sampleExternals false none)
      { AiPackage.new (sampleExternals false none) with
        mShortcutProhibited := true, mShortcutFailPos := ⟨10, 0, 0⟩ }
      ⟨20, 0, 0⟩ ⟨1000, 0, 0⟩ (sampleActor 20 0 0) (some false)).ret = false ∧
    (AiPackage.shortcutPath (sampleWorldRay false 0) (sampleExternals false none)
      { AiPackage.new (sampleExternals false none) with
        mShortcutProhibited := true, mShortcutFailPos := ⟨10, 0, 0⟩ }
      ⟨400, 0, 0⟩ ⟨1000, 0, 0⟩ (sampleActor 400 0 0) (some false)).calls
      = [WorldCall.castRay 400 0 0 1000 0 0] :=
  ⟨((shortcutPath_prohibited (sampleWorldRay false 0) (sampleExternals false none)
      { AiPackage.new (sampleExternals false none) with
        mShortcutProhibited := true, mShortcutFailPos := ⟨10, 0, 0⟩ }
      ⟨20, 0, 0⟩ ⟨1000, 0, 0⟩ (sampleActor 20 0 0) (some false) rfl rfl).2.1
        (by decide!)).1,
    ((shortcutPath_prohibited (sampleWorldRay false 0) (sampleExternals false none)
      { AiPackage.new (sampleExternals false none) with
        mShortcutProhibited := true, mShortcutFailPos := ⟨10, 0, 0⟩ }
      ⟨20, 0, 0⟩ ⟨1000, 0, 0⟩ (sampleActor 20 0 0) (some false) rfl rfl).2.1
        (by decide!)).2.1,
    ((shortcutPath_prohibited (sampleWorldRay false 0) (sampleExternals false none)
      { AiPackage.new (sampleExternals false none) with
        mShortcutProhibited := true, mShortcutFailPos := ⟨10, 0, 0⟩ }
      ⟨400, 0, 0⟩ ⟨1000, 0, 0⟩ (sampleActor 400 0 0) (some false) rfl rfl).2.2
        (by decide!)).trans (by decide!)⟩

/-- C15, as stated, fails: a freshly constructed controller whose direct ray cast from
(5,0,0) to (100,0,0) is reported blocked returns false from `shortcutPath`, but the
shortcut-prohibited flag is still unset and the failure position is still the zero point,
not the start of the attempt. -/
theorem shortcutPath_blocked_counterexample :
    (sampleWorldRay true 0).castRay 5 0 0 100 0 0 = true ∧
    (AiPackage.shortcutPath (sampleWorldRay true 0) (sampleExternals false none)
      (AiPackage.new (sampleExternals false none))
      ⟨5, 0, 0⟩ ⟨100, 0, 0⟩ (sampleActor 5 0 0) (some false)).calls
      = [WorldCall.castRay 5 0 0 100 0 0] ∧
    (AiPackage.shortcutPath (sampleWorldRay true 0) (sampleExternals false none)
      (AiPackage.new (sampleExternals false none))
      ⟨5, 0, 0⟩ ⟨100, 0, 0⟩ (sampleActor 5 0 0) (some false)).ret = false ∧
    (AiPackage.shortcutPath (sampleWorldRay true 0) (sampleExternals false none)
      (AiPackage.new (sampleExternals false none))
      ⟨5, 0, 0⟩ ⟨100, 0, 0⟩ (sampleActor 5 0 0) (some false)).self.mShortcutProhibited
      = false ∧
    (AiPackage.shortcutPath (sampleWorldRay true 0) (sampleExternals false none)
      (AiPackage.new (sampleExternals false none))
      ⟨5, 0, 0⟩ ⟨100, 0, 0⟩ (sampleActor 5 0 0) (some false)).self.mShortcutFailPos
      = ⟨0, 0, 0⟩ := by
  refine ⟨rfl, by decide!, by decide!, by decide!, by decide!⟩

/-- C15, amended: whenever the direct ray cast made by `shortcutPath` (for an actor that
cannot move vertically) reports the line from start to end as blocked, `shortcutPath`
returns false without raising an error, records that the destination is not in line of
sight and leaves the controller state, the shortcut-prohibited flag and the failure
position included, as it was; shortcutting is disabled (flag set, failure position the
start of that attempt) when the ray cast reports the line free, the check of the way for
the actor that follows reports not clear and the stored failure position is the zero
point. -/
theorem shortcutPath_blocked (w : MWBase.World) (e : Externals) (self : AiPackage)
    (startPoint endPoint : Point) (actor : MWWorld.Ptr) (destInLOS : Option Bool)
    (hground : ((actor.canSwim && w.isSwimming actor) || w.isFlying actor) = false)
    (hattempt : self.mShortcutProhibited = false ∨
      ((PathFinder.MakeOsgVec3 self.mShortcutFailPos).sub
        (PathFinder.MakeOsgVec3 startPoint)).length e.sqrt ≥ PATHFIND_SHORTCUT_RETRY_DIST) :
    let blocked := w.castRay (startPoint.mX : ℚ) (startPoint.mY : ℚ) (startPoint.mZ : ℚ)
      (endPoint.mX : ℚ) (endPoint.mY : ℚ) (endPoint.mZ : ℚ)
    let result := AiPackage.shortcutPath w e self startPoint endPoint actor destInLOS
    (blocked = true →
      result.ret = false ∧ result.self = self ∧
      result.self.mShortcutProhibited = self.mShortcutProhibited ∧
      result.self.mShortcutFailPos = self.mShortcutFailPos ∧
      result.destInLOS = destInLOS.map (fun _ => false)) ∧
    (blocked = false →
      (AiPackage.checkWayIsClearForActor w e self startPoint endPoint actor).1 = false →
      self.mShortcutFailPos = ⟨0, 0, 0⟩ →
      result.ret = false ∧ result.self.mShortcutProhibited = true ∧
      result.self.mShortcutFailPos = startPoint) := by
  intro blocked result
  constructor
  · intro hb
    have hb2 : w.castRay (startPoint.mX : ℚ) (startPoint.mY : ℚ) (startPoint.mZ : ℚ)
      (endPoint.mX : ℚ) (endPoint.mY : ℚ) (endPoint.mZ : ℚ) = true := hb
    simp [result, AiPackage.shortcutPath, hground, hattempt, hb2]
  · intro hb hnotclear hzero
    have hb2 : w.castRay (startPoint.mX : ℚ) (startPoint.mY : ℚ) (startPoint.mZ : ℚ)
      (endPoint.mX : ℚ) (endPoint.mY : ℚ) (endPoint.mZ : ℚ) = false := hb
    have hstate : (AiPackage.checkWayIsClearForActor w e self startPoint endPoint actor).2 =
        { self with mShortcutProhibited := true, mShortcutFailPos := startPoint } := by
      unfold AiPackage.checkWayIsClearForActor at hnotclear ⊢
      simp only [hground, Bool.false_eq_true, if_false] at hnotclear ⊢
      simp [hnotclear, hzero]
    simp [result, AiPackage.shortcutPath, hground, hattempt, hb2, hnotclear, hstate]

theorem shortcutPath_blocked_witness :
    (AiPackage.shortcutPath (sampleWorldRay true 0) (sampleExternals false none)
      (AiPackage.new (sampleExternals false none))
      ⟨5, 0, 0⟩ ⟨100, 0, 0⟩ (sampleActor 5 0 0) (some false)).ret = false ∧
    (AiPackage.shortcutPath (sampleWorldRay false 500) (sampleExternals false none)
      (AiPackage.new (sampleExternals false none))
      ⟨5, 0, 0⟩ ⟨100, 0, 0⟩ (sampleActor 5 0 0) (some false)).self.mShortcutProhibited
      = true :=
  ⟨((shortcutPath_blocked (sampleWorldRay true 0) (sampleExternals false none)
      (AiPackage.new (sampleExternals false none))
      ⟨5, 0, 0⟩ ⟨100, 0, 0⟩ (sampleActor 5 0 0) (some false) rfl (Or.inl rfl)).1 rfl).1,
    ((shortcutPath_blocked (sampleWorldRay false 500) (sampleExternals false none)
      (AiPackage.new (sampleExternals false none))
      ⟨5, 0, 0⟩ ⟨100, 0, 0⟩ (sampleActor 5 0 0) (some false) rfl (Or.inl rfl)).2 rfl
        (by decide!) rfl).2.1⟩

/-- `checkWayIsClearForActor` keeps the invariant "flag unset implies failure position at
the zero point". -/
theorem AiPackage.checkWayIsClearForActor_invariant (w : MWBase.World) (e : Externals)
    (self : AiPackage) (startPoint endPoint : Point) (actor : MWWorld.Ptr)
    (hinv : self.mShortcutProhibited = false → self.mShortcutFailPos = ⟨0, 0, 0⟩) :
    (AiPackage.checkWayIsClearForActor w e self startPoint endPoint actor).2.mShortcutProhibited
        = false →
      (AiPackage.checkWayIsClearForActor w e self startPoint endPoint actor).2.mShortcutFailPos
        = ⟨0, 0, 0⟩ := by
  unfold AiPackage.checkWayIsClearForActor
  simp only
  split_ifs <;> simp_all

/-- `shortcutPath` keeps the invariant "flag unset implies failure position at the zero
point". -/
theorem AiPackage.shortcutPath_invariant (w : MWBase.World) (e : Externals)
    (self : AiPackage) (startPoint endPoint : Point) (actor : MWWorld.Ptr)
    (destInLOS : Option Bool)
    (hinv : self.mShortcutProhibited = false → self.mShortcutFailPos = ⟨0, 0, 0⟩) :
    (AiPackage.shortcutPath w e self startPoint endPoint actor destInLOS).self.mShortcutProhibited
        = false →
      (AiPackage.shortcutPath w e self startPoint endPoint actor destInLOS).self.mShortcutFailPos
        = ⟨0, 0, 0⟩ := by
  have hcheck := AiPackage.checkWayIsClearForActor_invariant w e self startPoint endPoint
    actor hinv
  unfold AiPackage.shortcutPath
  simp only
  split_ifs <;> first | exact hinv | exact hcheck

/-- C16: in every controller state reachable from the freshly constructed one through calls
to `checkWayIsClearForActor` and `shortcutPath`, the invariant "flag unset implies failure
position at the zero point" holds, and after a check of the way for an actor that cannot
move vertically returns not clear the shortcut-prohibited flag is set. -/
theorem shortcut_prohibition_invariant (e : Externals) (self : AiPackage)
    (hreach : AiPackage.Reachable e self) :
    (self.mShortcutProhibited = false → self.mShortcutFailPos = ⟨0, 0, 0⟩) ∧
    (∀ (w : MWBase.World) (startPoint endPoint : Point) (actor : MWWorld.Ptr),
      ((actor.canSwim && w.isSwimming actor) || w.isFlying actor) = false →
      (AiPackage.checkWayIsClearForActor w e self startPoint endPoint actor).1 = false →
      (AiPackage.checkWayIsClearForActor w e self startPoint endPoint
        actor).2.mShortcutProhibited = true) := by
  have hinv : self.mShortcutProhibited = false → self.mShortcutFailPos = ⟨0, 0, 0⟩ := by
    induction hreach with
    | fresh => intro _; rfl
    | afterCheckWay w s startPoint endPoint actor _ ih =>
      exact AiPackage.checkWayIsClearForActor_invariant w e s startPoint endPoint actor ih
    | afterShortcut w s startPoint endPoint actor destInLOS _ ih =>
      exact AiPackage.shortcutPath_invariant w e s startPoint endPoint actor destInLOS ih
  refine ⟨hinv, ?_⟩
  intro w startPoint endPoint actor hground hnotclear
  unfold AiPackage.checkWayIsClearForActor at hnotclear ⊢
  simp only [hground, Bool.false_eq_true, if_false] at hnotclear ⊢
  simp only [hnotclear, Bool.false_eq_true, if_false, Bool.not_false, if_true]
  by_cases hzero : self.mShortcutFailPos.mX = 0 ∧ self.mShortcutFailPos.mY = 0 ∧
      self.mShortcutFailPos.mZ = 0
  · simp [hzero]
  · simp only [hzero, if_false]
    cases hflag : self.mShortcutProhibited
    · exfalso
      apply hzero
      rw [hinv hflag]
      exact ⟨rfl, rfl, rfl⟩
    · rfl

theorem shortcut_prohibition_invariant_witness :
    AiPackage.Reachable (sampleExternals false none)
      (AiPackage.shortcutPath (sampleWorldRay false 500) (sampleExternals false none)
        (AiPackage.new (sampleExternals false none))
        ⟨5, 0, 0⟩ ⟨100, 0, 0⟩ (sampleActor 5 0 0) (some false)).self ∧
    (AiPackage.checkWayIsClearForActor (sampleWorldRay false 500) (sampleExternals false none)
      (AiPackage.shortcutPath (sampleWorldRay false 500) (sampleExternals false none)
        (AiPackage.new (sampleExternals false none))
        ⟨5, 0, 0⟩ ⟨100, 0, 0⟩ (sampleActor 5 0 0) (some false)).self
      ⟨7, 0, 0⟩ ⟨100, 0, 0⟩ (sampleActor 7 0 0)).1 = false ∧
    (AiPackage.checkWayIsClearForActor (sampleWorldRay false 500) (sampleExternals false none)
      (AiPackage.shortcutPath (sampleWorldRay false 500) (sampleExternals false none)
        (AiPackage.new (sampleExternals false none))
        ⟨5, 0, 0⟩ ⟨100, 0, 0⟩ (sampleActor 5 0 0) (some false)).self
      ⟨7, 0, 0⟩ ⟨100, 0, 0⟩ (sampleActor 7 0 0)).2.mShortcutProhibited = true :=
  ⟨AiPackage.Reachable.afterShortcut _ _ _ _ _ _ AiPackage.Reachable.fresh,
    by decide!,
    (shortcut_prohibition_invariant (sampleExternals false none) _
      (AiPackage.Reachable.afterShortcut (sampleWorldRay false 500)
        (AiPackage.new (sampleExternals false none)) ⟨5, 0, 0⟩ ⟨100, 0, 0⟩
        (sampleActor 5 0 0) (some false) AiPackage.Reachable.fresh)).2
      (sampleWorldRay false 500) ⟨7, 0, 0⟩ ⟨100, 0, 0⟩ (sampleActor 7 0 0) rfl (by decide!)⟩

/-! ## Claims about `evadeObstacles` -/

/-- C18, as stated, fails: the stuck detector reports stuck and the nearby door is locked
(lock level 50), so the door is not opened, yet no evasive manoeuvre is issued either: the
only call is the turn toward the next waypoint and the movement settings are untouched. -/
theorem evadeObstacles_locked_door_counterexample :
    ((sampleExternals true (some sampleDoorLocked)).obstacleCheck 0 (sampleActor 0 0 0)
      (1 / 10)).1 = true ∧
    (sampleExternals true (some sampleDoorLocked)).getNearbyDoor (sampleActor 0 0 0)
      = some sampleDoorLocked ∧
    sampleDoorLocked.lockLevel = 50 ∧
    (AiPackage.evadeObstacles (sampleExternals true (some sampleDoorLocked))
      (AiPackage.new (sampleExternals true (some sampleDoorLocked)))
      (sampleActor 0 0 0) (1 / 10) (sampleActor 0 0 0).position).calls
      = [WorldCall.zTurn 0] ∧
    WorldCall.takeEvasiveAction ∉
      (AiPackage.evadeObstacles (sampleExternals true (some sampleDoorLocked))
        (AiPackage.new (sampleExternals true (some sampleDoorLocked)))
        (sampleActor 0 0 0) (1 / 10) (sampleActor 0 0 0).position).calls ∧
    (AiPackage.evadeObstacles (sampleExternals true (some sampleDoorLocked))
      (AiPackage.new (sampleExternals true (some sampleDoorLocked)))
      (sampleActor 0 0 0) (1 / 10) (sampleActor 0 0 0).position).movement.mPosition0 = 0 := by
  refine ⟨rfl, rfl, rfl, by decide!, by decide!, by decide!⟩

/-- C18, amended: when the stuck detector reports the agent stuck, `evadeObstacles` opens
the nearby door if one is found that is not a teleport door, has no trap, is not locked and
is currently closed; if a door is found that fails one of these conditions it neither opens
it nor issues the evasive manoeuvre; the evasive manoeuvre is issued exactly when no door
is found.  When the detector reports not stuck it commands full forward movement (forward
axis = 1).  In every case the agent is first turned toward the next waypoint. -/
theorem evadeObstacles_cases (e : Externals) (self : AiPackage) (actor : MWWorld.Ptr)
    (duration : ℚ) (pos : ESM.Position) :
    let stuck := (e.obstacleCheck self.mObstacleCheck actor duration).1
    let turn := WorldCall.zTurn (self.mPathFinder.getZAngleToNext e.atan2 pos.pos.x pos.pos.y)
    let result := AiPackage.evadeObstacles e self actor duration pos
    (stuck = true → ∀ door, e.getNearbyDoor actor = some door →
      (door.teleport = false ∧ door.trap.isEmpty = true ∧ door.lockLevel ≤ 0 ∧
          door.doorState = 0 →
        result.calls = [turn, WorldCall.activateDoor door 1] ∧
        result.movement = actor.movement) ∧
      (¬ (door.teleport = false ∧ door.trap.isEmpty = true ∧ door.lockLevel ≤ 0 ∧
          door.doorState = 0) →
        result.calls = [turn] ∧ result.movement = actor.movement)) ∧
    (stuck = true → e.getNearbyDoor actor = none →
      result.calls = [turn, WorldCall.takeEvasiveAction] ∧
      result.movement =
        (e.takeEvasiveAction (e.obstacleCheck self.mObstacleCheck actor duration).2
          actor.movement).1) ∧
    (stuck = false →
      result.calls = [turn] ∧ result.movement = { actor.movement with mPosition1 := 1 } ∧
      result.movement.mPosition1 = 1) := by
  intro stuck turn result
  refine ⟨?_, ?_, ?_⟩
  · intro hstuck door hdoor
    have hs : (e.obstacleCheck self.mObstacleCheck actor duration).1 = true := hstuck
    constructor
    · intro hok
      simp [result, turn, AiPackage.evadeObstacles, hs, hdoor, hok]
    · intro hbad
      simp only [result, turn, AiPackage.evadeObstacles, hs, hdoor, if_true]
      rw [if_neg hbad]
      exact ⟨rfl, rfl⟩
  · intro hstuck hdoor
    have hs : (e.obstacleCheck self.mObstacleCheck actor duration).1 = true := hstuck
    simp [result, turn, AiPackage.evadeObstacles, hs, hdoor]
  · intro hstuck
    have hs : (e.obstacleCheck self.mObstacleCheck actor duration).1 = false := hstuck
    simp [result, turn, AiPackage.evadeObstacles, hs]

theorem evadeObstacles_cases_witness :
    (AiPackage.evadeObstacles (sampleExternals true (some sampleDoorClosed))
      (AiPackage.new (sampleExternals true (some sampleDoorClosed)))
      (sampleActor 0 0 0) (1 / 10) (sampleActor 0 0 0).position).calls
      = [WorldCall.zTurn 0, WorldCall.activateDoor sampleDoorClosed 1] ∧
    (AiPackage.evadeObstacles (sampleExternals true none)
      (AiPackage.new (sampleExternals true none))
      (sampleActor 0 0 0) (1 / 10) (sampleActor 0 0 0).position).calls
      = [WorldCall.zTurn 0, WorldCall.takeEvasiveAction] ∧
    (AiPackage.evadeObstacles (sampleExternals false none)
      (AiPackage.new (sampleExternals false none))
      (sampleActor 0 0 0) (1 / 10) (sampleActor 0 0 0).position).movement.mPosition1 = 1 :=
  ⟨(((evadeObstacles_cases (sampleExternals true (some sampleDoorClosed))
      (AiPackage.new (sampleExternals true (some sampleDoorClosed)))
      (sampleActor 0 0 0) (1 / 10) (sampleActor 0 0 0).position).1 rfl sampleDoorClosed rfl).1
        (by decide)).1,
    ((evadeObstacles_cases (sampleExternals true none)
      (AiPackage.new (sampleExternals true none))
      (sampleActor 0 0 0) (1 / 10) (sampleActor 0 0 0).position).2.1 rfl rfl).1,
    ((evadeObstacles_cases (sampleExternals false none)
      (AiPackage.new (sampleExternals false none))
      (sampleActor 0 0 0) (1 / 10) (sampleActor 0 0 0).position).2.2 rfl).2.2⟩

/-! ## The reaction step of `pathTo` -/

/-- Under its guard the reaction step is the body `react`, whose calls are those of the
rebuild decision and whose path is the rebuilt path after the far-destination append. -/
theorem AiPackage.pathTo.reactionStep_eq (w : MWBase.World) (e : Externals)
    (self : AiPackage) (actor : MWWorld.Ptr) (dest : Point) (destTolerance : ℚ)
    (hfar : ¬ distance e.sqrt (PathFinder.MakePathgridPoint actor.position) dest ≤
      destTolerance)
    (htimer : self.mTimer > e.AI_REACTION_TIME) :
    (AiPackage.pathTo.reactionStep w e self actor dest destTolerance).calls =
      (AiPackage.pathTo.rebuild w e { self with mLastActorPos := actor.position.asVec3 } actor
        (PathFinder.MakePathgridPoint actor.position) dest
        (AiPackage.pathTo.isStuck e self actor
          (PathFinder.MakePathgridPoint actor.position) dest)).calls ∧
    (AiPackage.pathTo.reactionStep w e self actor dest destTolerance).self.mPathFinder =
      AiPackage.pathTo.appendDest e
        (AiPackage.pathTo.rebuild w e { self with mLastActorPos := actor.position.asVec3 }
          actor (PathFinder.MakePathgridPoint actor.position) dest
          (AiPackage.pathTo.isStuck e self actor
            (PathFinder.MakePathgridPoint actor.position) dest)).self.mPathFinder dest := by
  have hguard : decide (distance e.sqrt (PathFinder.MakePathgridPoint actor.position) dest ≤
      destTolerance) = false ∧ self.mTimer > e.AI_REACTION_TIME :=
    ⟨by simpa using hfar, htimer⟩
  simp only [AiPackage.pathTo.reactionStep, hguard, and_self, if_true, AiPackage.pathTo.react]

/-- The rebuild decision for a stuck agent: no call is made; the path finder is the result
of `buildSyncedPath` when the destination moved or the way is not clear, and is untouched
otherwise. -/
theorem AiPackage.pathTo.rebuild_stuck (w : MWBase.World) (e : Externals)
    (self : AiPackage) (actor : MWWorld.Ptr) (start dest : Point) :
    (AiPackage.pathTo.rebuild w e self actor start dest true).calls = [] ∧
    ((distance e.sqrt self.mPrevDest dest > 10 ∨
        (AiPackage.checkWayIsClearForActor w e self start dest actor).1 = false) →
      (AiPackage.pathTo.rebuild w e self actor start dest true).self.mPathFinder =
        self.mPathFinder.buildSyncedPath w start dest actor.cell) ∧
    (¬ (distance e.sqrt self.mPrevDest dest > 10 ∨
        (AiPackage.checkWayIsClearForActor w e self start dest actor).1 = false) →
      (AiPackage.pathTo.rebuild w e self actor start dest true).self.mPathFinder =
        self.mPathFinder) := by
  have hclear : ∀ s : AiPackage,
      (AiPackage.checkWayIsClearForActor w e s start dest actor).1 =
        (AiPackage.checkWayIsClearForActor w e self start dest actor).1 :=
    fun s => AiPackage.checkWayIsClearForActor_fst w e s self start dest actor
  unfold AiPackage.pathTo.rebuild
  simp only [AiPackage.doesPathNeedRecalc_fst, AiPackage.doesPathNeedRecalc_snd,
    true_or, if_true]
  by_cases hrecalc : distance e.sqrt self.mPrevDest dest > 10
  · simp [hrecalc, AiPackage.pathTo.buildSynced]
  · simp only [hrecalc, decide_False, if_false, if_true, false_or, hclear,
      Bool.false_eq_true, or_false]
    cases hc : (AiPackage.checkWayIsClearForActor w e self start dest actor).1
    · simp [AiPackage.pathTo.buildSynced,
        (AiPackage.checkWayIsClearForActor_frame w e _ start dest actor).1]
    · simp [(AiPackage.checkWayIsClearForActor_frame w e _ start dest actor).1]

/-- The path left by the far-destination append. -/
theorem AiPackage.pathTo.appendDest_mPath (e : Externals) (mPathFinder : PathFinder)
    (dest : Point) :
    (AiPackage.pathTo.appendDest e mPathFinder dest).mPath =
      match mPathFinder.mPath.getLast? with
      | none => mPathFinder.mPath
      | some lastPos =>
        if distance e.sqrt dest lastPos > 100 then mPathFinder.mPath ++ [dest]
        else mPathFinder.mPath := by
  unfold AiPackage.pathTo.appendDest
  simp only [PathFinder.getPath]
  cases mPathFinder.mPath.getLast? with
  | none => rfl
  | some lastPos =>
    simp only
    split_ifs <;> simp [PathFinder.addPointToPath]

theorem distance_self_of_sqrt_zero (sqrtf : ℚ → ℚ) (a : Point) (hzero : sqrtf 0 = 0) :
    distance sqrtf a a = 0 := by
  unfold distance
  simp [hzero]

/-! ## Claims about the reaction step of `pathTo` -/

/-- C24: on a reaction tick of `pathTo` on which the agent is judged stuck, `shortcutPath`
is not invoked: the rebuild decision, and so the whole reaction step, makes no call (no
shortcut ray cast); when a rebuild is triggered (destination more than 10 units from the
previous one, or the way no longer clear) the path finder after the rebuild, before the
far-destination append, is exactly the result of `buildSyncedPath` (never collapsed to the
direct waypoint), and when none is triggered it is untouched. -/
theorem pathTo_stuck_never_shortcuts (w : MWBase.World) (e : Externals) (self : AiPackage)
    (actor : MWWorld.Ptr) (dest : Point) (destTolerance : ℚ)
    (hfar : ¬ distance e.sqrt (PathFinder.MakePathgridPoint actor.position) dest ≤
      destTolerance)
    (htimer : self.mTimer > e.AI_REACTION_TIME)
    (hstuck : AiPackage.pathTo.isStuck e self actor
      (PathFinder.MakePathgridPoint actor.position) dest = true) :
    let start := PathFinder.MakePathgridPoint actor.position
    let isWayClear := (AiPackage.checkWayIsClearForActor w e self start dest actor).1
    let rebuilt := AiPackage.pathTo.rebuild w e
      { self with mLastActorPos := actor.position.asVec3 } actor start dest
      (AiPackage.pathTo.isStuck e self actor start dest)
    let step := AiPackage.pathTo.reactionStep w e self actor dest destTolerance
    step.self.mPathFinder = AiPackage.pathTo.appendDest e rebuilt.self.mPathFinder dest ∧
    rebuilt.calls = [] ∧
    step.calls = [] ∧
    ((distance e.sqrt self.mPrevDest dest > 10 ∨ isWayClear = false) →
      rebuilt.self.mPathFinder = self.mPathFinder.buildSyncedPath w start dest actor.cell) ∧
    (¬ (distance e.sqrt self.mPrevDest dest > 10 ∨ isWayClear = false) →
      rebuilt.self.mPathFinder = self.mPathFinder) := by
  intro start isWayClear rebuilt step
  obtain ⟨hcalls, hpath⟩ :=
    AiPackage.pathTo.reactionStep_eq w e self actor dest destTolerance hfar htimer
  have hrb := AiPackage.pathTo.rebuild_stuck w e
    { self with mLastActorPos := actor.position.asVec3 } actor start dest
  have hclear : (AiPackage.checkWayIsClearForActor w e
      { self with mLastActorPos := actor.position.asVec3 } start dest actor).1 = isWayClear :=
    AiPackage.checkWayIsClearForActor_fst w e _ self start dest actor
  rw [hclear] at hrb
  have hreb : rebuilt = AiPackage.pathTo.rebuild w e
      { self with mLastActorPos := actor.position.asVec3 } actor start dest true := by
    simp only [rebuilt, start, hstuck]
  refine ⟨hpath, ?_, ?_, ?_, ?_⟩
  · rw [hreb]; exact hrb.1
  · simp only [step]
    rw [hcalls]
    show rebuilt.calls = []
    rw [hreb]
    exact hrb.1
  · intro h
    rw [hreb]
    exact hrb.2.1 h
  · intro h
    rw [hreb]
    exact hrb.2.2 h

theorem pathTo_stuck_never_shortcuts_witness :
    AiPackage.pathTo.isStuck (sampleExternals false none)
      { AiPackage.new (sampleExternals false none) with
        mTimer := 1, mPathFinder := { PathFinder.new with mPath := [⟨50, 0, 0⟩] } }
      (sampleActor 0 0 0) ⟨0, 0, 0⟩ ⟨100, 0, 0⟩ = true ∧
    (AiPackage.pathTo.reactionStep sampleWorldLine (sampleExternals false none)
      { AiPackage.new (sampleExternals false none) with
        mTimer := 1, mPathFinder := { PathFinder.new with mPath := [⟨50, 0, 0⟩] } }
      (sampleActor 0 0 0) ⟨100, 0, 0⟩ 32).calls = [] ∧
    (AiPackage.pathTo.rebuild sampleWorldLine (sampleExternals false none)
      { AiPackage.new (sampleExternals false none) with
        mTimer := 1, mPathFinder := { PathFinder.new with mPath := [⟨50, 0, 0⟩] },
        mLastActorPos := (sampleActor 0 0 0).position.asVec3 }
      (sampleActor 0 0 0) ⟨0, 0, 0⟩ ⟨100, 0, 0⟩ true).self.mPathFinder.mPath
      = [⟨0, 0, 0⟩, ⟨10, 0, 0⟩, ⟨100, 0, 0⟩] :=
  ⟨by decide!,
    (pathTo_stuck_never_shortcuts sampleWorldLine (sampleExternals false none)
      { AiPackage.new (sampleExternals false none) with
        mTimer := 1, mPathFinder := { PathFinder.new with mPath := [⟨50, 0, 0⟩] } }
      (sampleActor 0 0 0) ⟨100, 0, 0⟩ 32 (by decide!) (by decide!) (by decide!)).2.2.1,
    by decide!⟩

/-- C25: `doesPathNeedRecalc` returns true exactly when the distance between the stored
previous destination and the new destination is greater than 10; when it returns true the
stored previous destination becomes the new destination, when it returns false it is
unchanged, and nothing else in the state changes; so after every call the stored previous
destination is within 10 units of the destination just passed (for every square-root
function that maps 0 to 0). -/
theorem doesPathNeedRecalc_threshold (e : Externals) (self : AiPackage) (dest : Point)
    (cell : Nat) (hzero : e.sqrt 0 = 0) :
    let result := AiPackage.doesPathNeedRecalc e self dest cell
    (result.1 = true ↔ distance e.sqrt self.mPrevDest dest > 10) ∧
    (result.1 = true → result.2.mPrevDest = dest) ∧
    (result.1 = false → result.2.mPrevDest = self.mPrevDest) ∧
    result.2 = { self with mPrevDest := result.2.mPrevDest } ∧
    distance e.sqrt result.2.mPrevDest dest ≤ 10 := by
  intro result
  simp only [result, AiPackage.doesPathNeedRecalc_fst, AiPackage.doesPathNeedRecalc_snd]
  by_cases h : distance e.sqrt self.mPrevDest dest > 10
  · simp [h, distance_self_of_sqrt_zero e.sqrt dest hzero]
  · simp only [h, decide_False, Bool.false_eq_true, if_false, false_implies, implies_true,
      true_and, iff_self]
    exact not_lt.mp h

theorem doesPathNeedRecalc_threshold_witness :
    (sampleExternals false none).sqrt 0 = 0 ∧
    (AiPackage.doesPathNeedRecalc (sampleExternals false none)
      (AiPackage.new (sampleExternals false none)) ⟨100, 0, 0⟩ 0).1 = true ∧
    (AiPackage.doesPathNeedRecalc (sampleExternals false none)
      (AiPackage.new (sampleExternals false none)) ⟨100, 0, 0⟩ 0).2.mPrevDest = ⟨100, 0, 0⟩ :=
  ⟨by decide!,
    (doesPathNeedRecalc_threshold (sampleExternals false none)
      (AiPackage.new (sampleExternals false none)) ⟨100, 0, 0⟩ 0 (by decide!)).1.mpr
      (by decide!),
    (doesPathNeedRecalc_threshold (sampleExternals false none)
      (AiPackage.new (sampleExternals false none)) ⟨100, 0, 0⟩ 0 (by decide!)).2.1
      (by decide!)⟩

/-- C26: at the end of every reaction step of `pathTo` (for every square-root function that
maps 0 to 0), if the path is non-empty its last waypoint is within 100 units of the
destination: when the last waypoint of the rebuilt path was farther than 100 units away the
destination is appended as the new last waypoint, and otherwise the path is not extended. -/
theorem pathTo_last_waypoint_near_dest (w : MWBase.World) (e : Externals)
    (self : AiPackage) (actor : MWWorld.Ptr) (dest : Point) (destTolerance : ℚ)
    (hfar : ¬ distance e.sqrt (PathFinder.MakePathgridPoint actor.position) dest ≤
      destTolerance)
    (htimer : self.mTimer > e.AI_REACTION_TIME)
    (hzero : e.sqrt 0 = 0) :
    let start := PathFinder.MakePathgridPoint actor.position
    let before := (AiPackage.pathTo.rebuild w e
      { self with mLastActorPos := actor.position.asVec3 } actor start dest
      (AiPackage.pathTo.isStuck e self actor start dest)).self.mPathFinder.mPath
    let after :=
      (AiPackage.pathTo.reactionStep w e self actor dest destTolerance).self.mPathFinder.mPath
    (∀ lastPos, before.getLast? = some lastPos → distance e.sqrt dest lastPos > 100 →
      after = before ++ [dest]) ∧
    (∀ lastPos, before.getLast? = some lastPos → ¬ distance e.sqrt dest lastPos > 100 →
      after = before) ∧
    (before = [] → after = []) ∧
    (∀ lastPos, after.getLast? = some lastPos → distance e.sqrt dest lastPos ≤ 100) := by
  intro start before after
  have hafter : after =
      match before.getLast? with
      | none => before
      | some lastPos =>
        if distance e.sqrt dest lastPos > 100 then before ++ [dest] else before := by
    simp only [after, before, start]
    rw [(AiPackage.pathTo.reactionStep_eq w e self actor dest destTolerance hfar htimer).2,
      AiPackage.pathTo.appendDest_mPath]
  refine ⟨?_, ?_, ?_, ?_⟩
  · intro lastPos hlast hgt
    rw [hafter, hlast]
    simp [hgt]
  · intro lastPos hlast hle
    rw [hafter, hlast]
    simp [hle]
  · intro hnil
    rw [hafter, hnil]
    rfl
  · intro lastPos hlast
    rw [hafter] at hlast
    cases hb : before.getLast? with
    | none =>
      rw [hb] at hlast
      simp only at hlast
      rw [hb] at hlast
      exact absurd hlast (by simp)
    | some l =>
      rw [hb] at hlast
      simp only at hlast
      by_cases hgt : distance e.sqrt dest l > 100
      · rw [if_pos hgt] at hlast
        simp only [List.getLast?_append, List.getLast?_singleton] at hlast
        have hdest : dest = lastPos := by simpa [Option.or] using hlast
        rw [← hdest, distance_self_of_sqrt_zero e.sqrt dest hzero]
        norm_num
      · rw [if_neg hgt, hb] at hlast
        simp only [Option.some.injEq] at hlast
        rw [← hlast]
        exact not_lt.mp hgt

theorem pathTo_last_waypoint_near_dest_witness :
    (sampleExternals false none).sqrt 0 = 0 ∧
    (AiPackage.pathTo.reactionStep sampleWorldLine (sampleExternals false none)
      { AiPackage.new (sampleExternals false none) with mTimer := 1 }
      (sampleActor 0 0 0) ⟨500, 0, 0⟩ 32).self.mPathFinder.mPath.getLast? = some ⟨500, 0, 0⟩ ∧
    distance (sampleExternals false none).sqrt ⟨500, 0, 0⟩ ⟨500, 0, 0⟩ ≤ 100 :=
  ⟨by decide!, by decide!,
    (pathTo_last_waypoint_near_dest sampleWorldLine (sampleExternals false none)
      { AiPackage.new (sampleExternals false none) with mTimer := 1 }
      (sampleActor 0 0 0) ⟨500, 0, 0⟩ 32 (by decide!) (by decide!) (by decide!)).2.2.2
      ⟨500, 0, 0⟩ (by decide!)⟩

/-! ## The scan of `getClosestReachablePoint` -/

theorem getClosestReachablePoint.eq_loop_init (grid : ESM.Pathgrid)
    (connected : Nat → Nat → Bool) (pos : osg.Vec3f) (start : Nat) :
    getClosestReachablePoint grid connected pos start =
      ((getClosestReachablePoint.loop connected pos start grid.mPoints 0
          getClosestReachablePoint.init).closestReachableIndex,
        (getClosestReachablePoint.loop connected pos start grid.mPoints 0
          getClosestReachablePoint.init).closestReachableIndex ==
        (getClosestReachablePoint.loop connected pos start grid.mPoints 0
          getClosestReachablePoint.init).closestIndex) := rfl

/-- The reachable minimum after one iteration. -/
theorem getClosestReachablePoint.step_reachable (connected : Nat → Nat → Bool)
    (pos : osg.Vec3f) (start : Nat) (p : Point) (counter : Nat) (s : ClosestReachableState) :
    (getClosestReachablePoint.step connected pos start p counter s).closestDistanceReachable =
      (if distanceSquared p pos < s.closestDistanceReachable ∧ connected start counter = true
        then distanceSquared p pos else s.closestDistanceReachable) ∧
    (getClosestReachablePoint.step connected pos start p counter s).closestReachableIndex =
      (if distanceSquared p pos < s.closestDistanceReachable ∧ connected start counter = true
        then counter else s.closestReachableIndex) := by
  unfold getClosestReachablePoint.step
  simp only
  split_ifs <;> simp_all

/-- The global minimum after one iteration, when it did not exceed the reachable minimum
before: the guard on the reachable minimum hides no closer point. -/
theorem getClosestReachablePoint.step_global (connected : Nat → Nat → Bool)
    (pos : osg.Vec3f) (start : Nat) (p : Point) (counter : Nat) (s : ClosestReachableState)
    (hle : s.closestDistanceBetween ≤ s.closestDistanceReachable) :
    (getClosestReachablePoint.step connected pos start p counter s).closestDistanceBetween =
      (if distanceSquared p pos < s.closestDistanceBetween
        then distanceSquared p pos else s.closestDistanceBetween) ∧
    (getClosestReachablePoint.step connected pos start p counter s).closestIndex =
      (if distanceSquared p pos < s.closestDistanceBetween
        then counter else s.closestIndex) := by
  unfold getClosestReachablePoint.step
  simp only
  by_cases h1 : distanceSquared p pos < s.closestDistanceReachable
  · by_cases h2 : connected start counter = true
    · by_cases h3 : distanceSquared p pos < s.closestDistanceBetween <;> simp [h1, h2, h3]
    · by_cases h3 : distanceSquared p pos < s.closestDistanceBetween <;> simp [h1, h2, h3]
  · have h3 : ¬ distanceSquared p pos < s.closestDistanceBetween := by
      intro h
      exact h1 (lt_of_lt_of_le h hle)
    simp [h1, h3]

theorem getClosestReachablePoint.step_reachableInvariant (connected : Nat → Nat → Bool)
    (pos : osg.Vec3f) (start : Nat) (pts : List Point) (k : Nat)
    (s : ClosestReachableState)
    (hinv : getClosestReachablePoint.ReachableInvariant connected pos start pts k s) :
    getClosestReachablePoint.ReachableInvariant connected pos start pts (k + 1)
      (getClosestReachablePoint.step connected pos start (pts.getD k ⟨0, 0, 0⟩) k s) := by
  obtain ⟨hR, hI⟩ := getClosestReachablePoint.step_reachable connected pos start
    (pts.getD k ⟨0, 0, 0⟩) k s
  unfold getClosestReachablePoint.ReachableInvariant at hinv ⊢
  rw [hR, hI]
  by_cases hupd : distanceSquared (pts.getD k ⟨0, 0, 0⟩) pos < s.closestDistanceReachable ∧
      connected start k = true
  · simp only [if_pos hupd]
    right
    refine ⟨Nat.lt_succ_self k, hupd.2, trivial, ?_, ?_⟩
    · rcases hinv with ⟨h1, -, -⟩ | ⟨-, -, -, h4, -⟩
      · rw [← h1]; exact hupd.1
      · exact lt_trans hupd.1 h4
    · intro j hj hc
      rcases Nat.lt_succ_iff_lt_or_eq.mp hj with hlt | heq
      · rcases hinv with ⟨h1, -, h3⟩ | ⟨-, -, -, -, h5⟩
        · exact le_of_lt (lt_of_lt_of_le (h1 ▸ hupd.1) (h3 j hlt hc))
        · exact le_of_lt (lt_of_lt_of_le hupd.1 (h5 j hlt hc))
      · rw [heq]
  · simp only [if_neg hupd]
    rcases hinv with ⟨h1, h2, h3⟩ | ⟨h1, h2, h3, h4, h5⟩
    · left
      refine ⟨h1, h2, ?_⟩
      intro j hj hc
      rcases Nat.lt_succ_iff_lt_or_eq.mp hj with hlt | heq
      · exact h3 j hlt hc
      · subst heq
        rw [← h1]
        exact not_lt.mp (fun h => hupd ⟨h, hc⟩)
    · right
      refine ⟨Nat.lt_succ_of_lt h1, h2, h3, h4, ?_⟩
      intro j hj hc
      rcases Nat.lt_succ_iff_lt_or_eq.mp hj with hlt | heq
      · exact h5 j hlt hc
      · subst heq
        exact not_lt.mp (fun h => hupd ⟨h, hc⟩)

theorem getClosestReachablePoint.step_globalInvariant (connected : Nat → Nat → Bool)
    (pos : osg.Vec3f) (start : Nat) (pts : List Point) (k : Nat)
    (s : ClosestReachableState)
    (hinv : getClosestReachablePoint.GlobalInvariant pos pts k s) :
    getClosestReachablePoint.GlobalInvariant pos pts (k + 1)
      (getClosestReachablePoint.step connected pos start (pts.getD k ⟨0, 0, 0⟩) k s) := by
  obtain ⟨hle, hinv⟩ := hinv
  obtain ⟨hR, -⟩ := getClosestReachablePoint.step_reachable connected pos start
    (pts.getD k ⟨0, 0, 0⟩) k s
  obtain ⟨hB, hI⟩ := getClosestReachablePoint.step_global connected pos start
    (pts.getD k ⟨0, 0, 0⟩) k s hle
  unfold getClosestReachablePoint.GlobalInvariant
  rw [hR, hB, hI]
  by_cases hupd : distanceSquared (pts.getD k ⟨0, 0, 0⟩) pos < s.closestDistanceBetween
  · simp only [if_pos hupd]
    refine ⟨?_, Or.inr ⟨Nat.lt_succ_self k, trivial, ?_, ?_, ?_⟩⟩
    · split_ifs
      · exact le_refl _
      · exact le_of_lt (lt_of_lt_of_le hupd hle)
    · rcases hinv with ⟨h1, -, -⟩ | ⟨-, -, h3, -, -⟩
      · rw [← h1]; exact hupd
      · exact lt_trans hupd h3
    · intro j hj
      rcases Nat.lt_succ_iff_lt_or_eq.mp hj with hlt | heq
      · rcases hinv with ⟨h1, -, h3⟩ | ⟨-, -, -, h4, -⟩
        · exact le_of_lt (lt_of_lt_of_le (h1 ▸ hupd) (h3 j hlt))
        · exact le_of_lt (lt_of_lt_of_le hupd (h4 j hlt))
      · rw [heq]
    · intro j hj
      rcases hinv with ⟨h1, -, h3⟩ | ⟨-, -, -, h4, -⟩
      · exact lt_of_lt_of_le (h1 ▸ hupd) (h3 j hj)
      · exact lt_of_lt_of_le hupd (h4 j hj)
  · simp only [if_neg hupd]
    refine ⟨?_, ?_⟩
    · split_ifs
      · exact not_lt.mp hupd
      · exact hle
    · rcases hinv with ⟨h1, h2, h3⟩ | ⟨h1, h2, h3, h4, h5⟩
      · left
        refine ⟨h1, h2, ?_⟩
        intro j hj
        rcases Nat.lt_succ_iff_lt_or_eq.mp hj with hlt | heq
        · exact h3 j hlt
        · subst heq
          rw [← h1]
          exact not_lt.mp hupd
      · right
        refine ⟨Nat.lt_succ_of_lt h1, h2, h3, ?_, h5⟩
        intro j hj
        rcases Nat.lt_succ_iff_lt_or_eq.mp hj with hlt | heq
        · exact h4 j hlt
        · subst heq
          exact not_lt.mp hupd

/-- Both invariants hold after the scan of any remaining part of the points. -/
theorem getClosestReachablePoint.loop_invariant (connected : Nat → Nat → Bool)
    (pos : osg.Vec3f) (start : Nat) (pts : List Point) (rest pre : List Point)
    (s : ClosestReachableState) (hsplit : pts = pre ++ rest)
    (hreach : getClosestReachablePoint.ReachableInvariant connected pos start pts pre.length s)
    (hglobal : getClosestReachablePoint.GlobalInvariant pos pts pre.length s) :
    getClosestReachablePoint.ReachableInvariant connected pos start pts pts.length
        (getClosestReachablePoint.loop connected pos start rest pre.length s) ∧
      getClosestReachablePoint.GlobalInvariant pos pts pts.length
        (getClosestReachablePoint.loop connected pos start rest pre.length s) := by
  induction rest generalizing pre s with
  | nil =>
    have hlen : pts.length = pre.length := by rw [hsplit]; simp
    rw [hlen]
    exact ⟨hreach, hglobal⟩
  | cons p rest ih =>
    have hp : pts.getD pre.length ⟨0, 0, 0⟩ = p := by
      rw [hsplit, List.getD_eq_getElem?_getD, List.getElem?_append_right (le_refl _)]
      simp
    have hsplit2 : pts = (pre ++ [p]) ++ rest := by rw [hsplit]; simp
    have hlen : (pre ++ [p]).length = pre.length + 1 := by simp
    have h1 := getClosestReachablePoint.step_reachableInvariant connected pos start pts
      pre.length s hreach
    have h2 := getClosestReachablePoint.step_globalInvariant connected pos start pts
      pre.length s hglobal
    rw [hp] at h1 h2
    have := ih (pre ++ [p])
      (getClosestReachablePoint.step connected pos start p pre.length s) hsplit2
      (by rw [hlen]; exact h1) (by rw [hlen]; exact h2)
    rw [hlen] at this
    exact this

/-- Both invariants hold at the end of the scan of `getClosestReachablePoint`. -/
theorem getClosestReachablePoint.final_invariant (grid : ESM.Pathgrid)
    (connected : Nat → Nat → Bool) (pos : osg.Vec3f) (start : Nat) :
    getClosestReachablePoint.ReachableInvariant connected pos start grid.mPoints
        grid.mPoints.length
        (getClosestReachablePoint.loop connected pos start grid.mPoints 0
          getClosestReachablePoint.init) ∧
      getClosestReachablePoint.GlobalInvariant pos grid.mPoints grid.mPoints.length
        (getClosestReachablePoint.loop connected pos start grid.mPoints 0
          getClosestReachablePoint.init) := by
  have h := getClosestReachablePoint.loop_invariant connected pos start grid.mPoints
    grid.mPoints [] getClosestReachablePoint.init (by simp)
    (Or.inl ⟨rfl, rfl, fun j hj => absurd hj (Nat.not_lt_zero j)⟩)
    ⟨le_refl _, Or.inl ⟨rfl, rfl, fun j hj => absurd hj (Nat.not_lt_zero j)⟩⟩
  simpa using h

/-- Index form of what `getClosestPoint` returns on a non-empty grid. -/
theorem getClosestPoint_index_spec (grid : ESM.Pathgrid) (pos : osg.Vec3f)
    (hne : grid.mPoints ≠ []) :
    getClosestPoint grid pos < grid.mPoints.length ∧
    (∀ j, j < grid.mPoints.length →
      distanceSquared (grid.mPoints.getD (getClosestPoint grid pos) ⟨0, 0, 0⟩) pos ≤
        distanceSquared (grid.mPoints.getD j ⟨0, 0, 0⟩) pos) ∧
    (∀ j, j < getClosestPoint grid pos →
      distanceSquared (grid.mPoints.getD (getClosestPoint grid pos) ⟨0, 0, 0⟩) pos <
        distanceSquared (grid.mPoints.getD j ⟨0, 0, 0⟩) pos) := by
  obtain ⟨pre, q, post, hsplit, hidx, hpre, hpost⟩ := getClosestPoint_split grid pos hne
  have hq : grid.mPoints.getD pre.length ⟨0, 0, 0⟩ = q := by
    rw [hsplit, List.getD_eq_getElem?_getD, List.getElem?_append_right (le_refl _)]
    simp
  rw [hidx, hq]
  refine ⟨by rw [hsplit]; simp, ?_, ?_⟩
  · intro j hj
    rcases Nat.lt_trichotomy j pre.length with h | h | h
    · apply le_of_lt
      apply hpre
      rw [hsplit, List.getD_eq_getElem?_getD, List.getElem?_append_left h,
        List.getElem?_eq_getElem h]
      simp
    · rw [h, hq]
    · apply hpost
      have hlen2 : j - pre.length - 1 < post.length := by
        rw [hsplit] at hj
        simp only [List.length_append, List.length_cons] at hj
        omega
      have hj2 : j - pre.length = (j - pre.length - 1) + 1 := by omega
      rw [hsplit, List.getD_eq_getElem?_getD, List.getElem?_append_right (le_of_lt h), hj2,
        List.getElem?_cons_succ, List.getElem?_eq_getElem hlen2]
      simp
  · intro j hj
    apply hpre
    rw [hsplit, List.getD_eq_getElem?_getD, List.getElem?_append_left hj,
      List.getElem?_eq_getElem hj]
    simp

/-! ## Claims about `getClosestReachablePoint` -/

/-- C21, as stated, fails: on the grid (4097,0,0), (4096,64,64) with every node reachable
from every node, the start node 0 and the position (0,0,0), node 1 is reachable from start
and strictly closer to the position than node 0 (squared distances 16785408 and 16785409),
yet both squared distances computed in single precision are 16785408 and
`getClosestReachablePoint` returns node 0. -/
theorem getClosestReachablePoint_reachable_counterexample :
    (⟨[⟨4097, 0, 0⟩, ⟨4096, 64, 64⟩]⟩ : ESM.Pathgrid).mPoints ≠ [] ∧
    (fun (_ _ : Nat) => true) 0 1 = true ∧
    ((4096 : ℚ) - 0) * (4096 - 0) + (64 - 0) * (64 - 0) + (64 - 0) * (64 - 0) <
      ((4097 : ℚ) - 0) * (4097 - 0) + (0 - 0) * (0 - 0) + (0 - 0) * (0 - 0) ∧
    distanceSquared ⟨4097, 0, 0⟩ ⟨0, 0, 0⟩ = 16785408 ∧
    distanceSquared ⟨4096, 64, 64⟩ ⟨0, 0, 0⟩ = 16785408 ∧
    distanceSquared ⟨4097, 0, 0⟩ ⟨0, 0, 0⟩ < FLT_MAX ∧
    getClosestReachablePoint ⟨[⟨4097, 0, 0⟩, ⟨4096, 64, 64⟩]⟩ (fun _ _ => true)
      ⟨0, 0, 0⟩ 0 = (0, true) := by
  refine ⟨by simp, rfl, by norm_num, by decide!, by decide!, by decide!, by decide!⟩

/-- C21, amended: for every non-empty pathgrid, position and start node such that at least
one node reachable from start has a computed squared distance below `FLT_MAX` (as every
node has for the coordinates the code handles, `distanceSquared_lt_FLT_MAX`),
`getClosestReachablePoint` returns an in-range node index that is reachable from start, so
its closing assertion holds, and no node reachable from start has a strictly smaller
squared distance to the position as computed in single precision; if no node is reachable
from start the returned index is the default 0 and the assertion fails. -/
theorem getClosestReachablePoint_reachable (grid : ESM.Pathgrid)
    (connected : Nat → Nat → Bool) (pos : osg.Vec3f) (start : Nat)
    (hne : grid.mPoints ≠ []) :
    let result := getClosestReachablePoint grid connected pos start
    ((∃ j, j < grid.mPoints.length ∧ connected start j = true ∧
        distanceSquared (grid.mPoints.getD j ⟨0, 0, 0⟩) pos < FLT_MAX) →
      result.1 < grid.mPoints.length ∧
      connected start result.1 = true ∧
      getClosestReachablePoint.postcondition grid connected pos start = true ∧
      ∀ j, j < grid.mPoints.length → connected start j = true →
        distanceSquared (grid.mPoints.getD result.1 ⟨0, 0, 0⟩) pos ≤
          distanceSquared (grid.mPoints.getD j ⟨0, 0, 0⟩) pos) ∧
    ((∀ j, j < grid.mPoints.length → connected start j = false) →
      result.1 = 0 ∧
      getClosestReachablePoint.postcondition grid connected pos start = false) := by
  intro result
  have hres : result.1 = (getClosestReachablePoint.loop connected pos start grid.mPoints 0
      getClosestReachablePoint.init).closestReachableIndex := by
    simp only [result, getClosestReachablePoint.eq_loop_init]
  have hpost : getClosestReachablePoint.postcondition grid connected pos start =
      connected start result.1 := rfl
  have hpos : 0 < grid.mPoints.length := List.length_pos.mpr hne
  obtain ⟨hinv, -⟩ := getClosestReachablePoint.final_invariant grid connected pos start
  unfold getClosestReachablePoint.ReachableInvariant at hinv
  rw [← hres] at hinv
  constructor
  · rintro ⟨j, hj, hc, hlt⟩
    rcases hinv with ⟨-, -, h3⟩ | ⟨h1, h2, h3, -, h5⟩
    · exact absurd hlt (not_lt.mpr (h3 j hj hc))
    · refine ⟨h1, h2, by rw [hpost]; exact h2, ?_⟩
      intro i hi hci
      rw [← h3]
      exact h5 i hi hci
  · intro hnone
    rcases hinv with ⟨-, h2, -⟩ | ⟨h1, h2, -, -, -⟩
    · refine ⟨h2, ?_⟩
      rw [hpost, h2]
      exact hnone 0 hpos
    · rw [hnone _ h1] at h2
      exact Bool.noConfusion h2

theorem getClosestReachablePoint_reachable_witness :
    (getClosestReachablePoint ⟨[⟨0, 0, 0⟩, ⟨10, 0, 0⟩, ⟨20, 0, 0⟩]⟩
      (fun i j => decide (i = j ∨ (1 ≤ i ∧ 1 ≤ j))) ⟨2, 0, 0⟩ 2).1 = 1 ∧
    (fun i j => decide (i = j ∨ (1 ≤ i ∧ 1 ≤ j)))
      2 (getClosestReachablePoint ⟨[⟨0, 0, 0⟩, ⟨10, 0, 0⟩, ⟨20, 0, 0⟩]⟩
        (fun i j => decide (i = j ∨ (1 ≤ i ∧ 1 ≤ j))) ⟨2, 0, 0⟩ 2).1 = true ∧
    getClosestReachablePoint.postcondition ⟨[⟨0, 0, 0⟩, ⟨10, 0, 0⟩, ⟨20, 0, 0⟩]⟩
      (fun _ _ => false) ⟨2, 0, 0⟩ 2 = false :=
  ⟨by decide!,
    ((getClosestReachablePoint_reachable ⟨[⟨0, 0, 0⟩, ⟨10, 0, 0⟩, ⟨20, 0, 0⟩]⟩
      (fun i j => decide (i = j ∨ (1 ≤ i ∧ 1 ≤ j))) ⟨2, 0, 0⟩ 2 (by simp)).1
        ⟨2, by decide, by decide, by decide!⟩).2.1,
    ((getClosestReachablePoint_reachable ⟨[⟨0, 0, 0⟩, ⟨10, 0, 0⟩, ⟨20, 0, 0⟩]⟩
      (fun _ _ => false) ⟨2, 0, 0⟩ 2 (by simp)).2 (fun _ _ => rfl)).2⟩

/-- C22: for every pathgrid, position and start node within the range of `float` (some
node has a computed squared distance below `FLT_MAX`, as every node has for the coordinates
the code handles, `distanceSquared_lt_FLT_MAX`), the boolean returned by
`getClosestReachablePoint` is true exactly when the returned reachable node index equals
the index `getClosestPoint` returns for the same grid and position: the index recorded as
globally closest is that index, although it is only updated under the guard on the
reachable minimum, because after every part of the scan the running global minimum does not
exceed the running reachable minimum. -/
theorem getClosestReachablePoint_flag (grid : ESM.Pathgrid)
    (connected : Nat → Nat → Bool) (pos : osg.Vec3f) (start : Nat)
    (hrange : ∃ j, j < grid.mPoints.length ∧
      distanceSquared (grid.mPoints.getD j ⟨0, 0, 0⟩) pos < FLT_MAX) :
    let result := getClosestReachablePoint grid connected pos start
    (result.2 = true ↔ result.1 = getClosestPoint grid pos) ∧
    (getClosestReachablePoint.loop connected pos start grid.mPoints 0
      getClosestReachablePoint.init).closestIndex = getClosestPoint grid pos ∧
    (∀ pre rest, grid.mPoints = pre ++ rest →
      (getClosestReachablePoint.loop connected pos start pre 0
          getClosestReachablePoint.init).closestDistanceBetween ≤
        (getClosestReachablePoint.loop connected pos start pre 0
          getClosestReachablePoint.init).closestDistanceReachable) := by
  intro result
  obtain ⟨j0, hj0, hlt0⟩ := hrange
  have hne : grid.mPoints ≠ [] := by
    intro h
    rw [h] at hj0
    exact Nat.not_lt_zero j0 hj0
  obtain ⟨-, -, hinv⟩ := getClosestReachablePoint.final_invariant grid connected pos start
  obtain ⟨hg1, hg2, hg3⟩ := getClosestPoint_index_spec grid pos hne
  have hindex : (getClosestReachablePoint.loop connected pos start grid.mPoints 0
      getClosestReachablePoint.init).closestIndex = getClosestPoint grid pos := by
    rcases hinv with ⟨-, -, h3⟩ | ⟨h1, h2, -, h4, h5⟩
    · exact absurd hlt0 (not_lt.mpr (h3 j0 hj0))
    · rw [h2] at h4 h5
      rcases Nat.lt_trichotomy
        (getClosestReachablePoint.loop connected pos start grid.mPoints 0
          getClosestReachablePoint.init).closestIndex (getClosestPoint grid pos)
        with h | h | h
      · exact absurd (hg3 _ h) (not_lt.mpr (h4 _ hg1))
      · exact h
      · exact absurd (h5 _ h) (not_lt.mpr (hg2 _ h1))
  refine ⟨?_, hindex, ?_⟩
  · simp only [result, getClosestReachablePoint.eq_loop_init, hindex, beq_iff_eq]
  · intro pre rest _
    exact (getClosestReachablePoint.final_invariant ⟨pre⟩ connected pos start).2.1

theorem getClosestReachablePoint_flag_witness :
    getClosestReachablePoint ⟨[⟨0, 0, 0⟩, ⟨10, 0, 0⟩, ⟨20, 0, 0⟩]⟩
      (fun i j => decide (i = j ∨ (1 ≤ i ∧ 1 ≤ j))) ⟨2, 0, 0⟩ 2 = (1, false) ∧
    getClosestPoint ⟨[⟨0, 0, 0⟩, ⟨10, 0, 0⟩, ⟨20, 0, 0⟩]⟩ ⟨2, 0, 0⟩ = 0 ∧
    ((getClosestReachablePoint ⟨[⟨0, 0, 0⟩, ⟨10, 0, 0⟩, ⟨20, 0, 0⟩]⟩
        (fun i j => decide (i = j ∨ (1 ≤ i ∧ 1 ≤ j))) ⟨2, 0, 0⟩ 2).2 = true ↔
      (getClosestReachablePoint ⟨[⟨0, 0, 0⟩, ⟨10, 0, 0⟩, ⟨20, 0, 0⟩]⟩
        (fun i j => decide (i = j ∨ (1 ≤ i ∧ 1 ≤ j))) ⟨2, 0, 0⟩ 2).1 =
        getClosestPoint ⟨[⟨0, 0, 0⟩, ⟨10, 0, 0⟩, ⟨20, 0, 0⟩]⟩ ⟨2, 0, 0⟩) :=
  ⟨by decide!, by decide!,
    (getClosestReachablePoint_flag ⟨[⟨0, 0, 0⟩, ⟨10, 0, 0⟩, ⟨20, 0, 0⟩]⟩
      (fun i j => decide (i = j ∨ (1 ≤ i ∧ 1 ≤ j))) ⟨2, 0, 0⟩ 2
      ⟨0, by decide, by decide!⟩).1⟩

/-! ## Claims about the first call of `pathTo` -/

theorem PathFinder.clearPath_mPath (self : PathFinder) : self.clearPath.mPath = [] := by
  unfold PathFinder.clearPath
  cases h : self.mPath with
  | nil => simp [h]
  | cons a l => simp [h]

/-- When `shortcutPath` succeeds the path is the single waypoint `endPoint`. -/
theorem AiPackage.shortcutPath_success (w : MWBase.World) (e : Externals)
    (self : AiPackage) (startPoint endPoint : Point) (actor : MWWorld.Ptr)
    (destInLOS : Option Bool)
    (hret : (AiPackage.shortcutPath w e self startPoint endPoint actor destInLOS).ret = true) :
    (AiPackage.shortcutPath w e self startPoint endPoint actor
      destInLOS).self.mPathFinder.mPath = [endPoint] := by
  unfold AiPackage.shortcutPath at hret ⊢
  simp only at hret ⊢
  split_ifs at hret ⊢ <;>
    first
      | (simp at hret; done)
      | simp [PathFinder.addPointToPath, PathFinder.clearPath_mPath]

/-- When the destination is more than 10 units from the stored previous destination, the
rebuild decision of `pathTo` does build a path: by a successful shortcut, which leaves the
single waypoint `dest`, or by the full rebuild. -/
theorem AiPackage.pathTo.rebuild_of_moved (w : MWBase.World) (e : Externals)
    (self : AiPackage) (actor : MWWorld.Ptr) (start dest : Point) (isStuck : Bool)
    (hmoved : distance e.sqrt self.mPrevDest dest > 10) :
    (AiPackage.pathTo.rebuild w e self actor start dest isStuck).self.mPathFinder.mPath
        = [dest] ∨
      ∃ (before : AiPackage) (destInLOS : Bool),
        (AiPackage.pathTo.rebuild w e self actor start dest isStuck).self =
          AiPackage.pathTo.buildSynced w e before actor start dest destInLOS := by
  unfold AiPackage.pathTo.rebuild
  simp only [AiPackage.doesPathNeedRecalc_fst, AiPackage.doesPathNeedRecalc_snd, hmoved,
    decide_True, if_true, Bool.true_eq_false, if_false, or_true, or_false]
  cases isStuck with
  | true => exact Or.inr ⟨_, _, rfl⟩
  | false =>
    simp only [Bool.false_eq_true, if_false]
    split_ifs with hret
    · exact Or.inr ⟨_, _, rfl⟩
    · left
      apply AiPackage.shortcutPath_success
      simpa using hret

/-- C23 at the failing input: a freshly constructed controller, a ground-bound actor at
(300,0,0) on level ground and the destination (5,0,0), at distance 295, beyond the
tolerance 32, and less than 10 units from the zero point at which the previous destination
starts.  The reaction step runs (the timer is above the reaction interval) but no
recalculation is found necessary and the way is clear, so neither `shortcutPath` nor
`buildSyncedPath` is called: the path stays empty, and `pathTo` reports the destination
reached and stops the actor. -/
theorem pathTo_first_call_without_build :
    AiPackage.isNearInactiveCell (sampleWorldSurface 0) (sampleExternals false none)
      (sampleActor 300 0 0).position = false ∧
    distance (sampleExternals false none).sqrt
      (PathFinder.MakePathgridPoint (sampleActor 300 0 0).position) ⟨5, 0, 0⟩ = 295 ∧
    (AiPackage.new (sampleExternals false none)).mTimer + 1 / 10 >
      (sampleExternals false none).AI_REACTION_TIME ∧
    (AiPackage.pathTo.reactionStep (sampleWorldSurface 0) (sampleExternals false none)
      { AiPackage.new (sampleExternals false none) with
        mTimer := (AiPackage.new (sampleExternals false none)).mTimer + 1 / 10 }
      (sampleActor 300 0 0) ⟨5, 0, 0⟩ 32).calls = [] ∧
    (AiPackage.pathTo.reactionStep (sampleWorldSurface 0) (sampleExternals false none)
      { AiPackage.new (sampleExternals false none) with
        mTimer := (AiPackage.new (sampleExternals false none)).mTimer + 1 / 10 }
      (sampleActor 300 0 0) ⟨5, 0, 0⟩ 32).self.mPathFinder.mPath = [] ∧
    (AiPackage.pathTo (sampleWorldSurface 0) (sampleExternals false none)
      (AiPackage.new (sampleExternals false none)) (sampleActor 300 0 0) ⟨5, 0, 0⟩
      (1 / 10) 32).self.mPathFinder.mPath = [] ∧
    (AiPackage.pathTo (sampleWorldSurface 0) (sampleExternals false none)
      (AiPackage.new (sampleExternals false none)) (sampleActor 300 0 0) ⟨5, 0, 0⟩
      (1 / 10) 32).ret = true ∧
    (PathFinder.buildSyncedPath (sampleWorldSurface 0) PathFinder.new ⟨300, 0, 0⟩ ⟨5, 0, 0⟩
      0).mPath = [⟨5, 0, 0⟩] := by
  refine ⟨rfl, by decide!, by decide!, by decide!, by decide!, by decide!, by decide!,
    by decide!⟩

end MWMechanics
